import Mathlib

set_option maxRecDepth 8000

/-!
Shallow embedding of `src/server.js` of the partner-deal-bot repository.

JS strings are modelled as lists of characters (`Str`); JS numbers as
rationals (`ℚ`).  The currency arithmetic done by the source stays in a
range where IEEE doubles behave like exact arithmetic on the inputs the
theorems below exercise, so the rational idealisation is faithful there;
the float literal `1e-9` of the source is modelled as the exact rational
`1/10^9`, and `none : Option ℚ` models a non-finite number (NaN).
-/

namespace PartnerDealBot

abbrev Str := List Char

def strLit (s : String) : Str := s.data

/-- JS `s.startsWith(pre)`. -/
def jsStartsWith : Str → Str → Bool
  | _, [] => true
  | [], _ :: _ => false
  | c :: cs, p :: ps => c == p && jsStartsWith cs ps

/-- True when the two strings differ at some index below both lengths; then
no extension of the first can start with the second. -/
def mismatchWithin : Str → Str → Bool
  | c :: cs, p :: ps => c != p || mismatchWithin cs ps
  | _, _ => false

/-- JS `s.includes(sub)`. -/
def containsSub : Str → Str → Bool
  | [], sub => sub.isEmpty
  | s@(_ :: rest), sub => jsStartsWith s sub || containsSub rest sub

/-- Split off the first occurrence of `sep`: `some (before, after)`. -/
def splitFirst : Str → Str → Option (Str × Str)
  | [], _ => none
  | c :: rest, sep =>
    if jsStartsWith (c :: rest) sep then some ([], (c :: rest).drop sep.length)
    else
      match splitFirst rest sep with
      | some (pre, post) => some (c :: pre, post)
      | none => none

def jsSplitAux : Nat → Str → Str → List Str
  | 0, s, _ => [s]
  | fuel + 1, s, sep =>
    match splitFirst s sep with
    | none => [s]
    | some (pre, post) => pre :: jsSplitAux fuel post sep

/-- JS `s.split(sep)` for a non-empty separator string. -/
def jsSplit (s sep : Str) : List Str := jsSplitAux (s.length + 1) s sep

/-- JS `s.trim()`. -/
def jsTrim (s : Str) : Str :=
  ((s.dropWhile Char.isWhitespace).reverse.dropWhile Char.isWhitespace).reverse

/-- JS `s.replace(target, repl)` with a string target: first occurrence only. -/
def jsReplaceFirst (s target repl : Str) : Str :=
  match splitFirst s target with
  | none => s
  | some (pre, post) => pre ++ repl ++ post

/-- JS `s1 || s2` on strings (the empty string is falsy). -/
def jsOr (s dflt : Str) : Str := if s.isEmpty then dflt else s

/-- JS regex test `/^\d+$/.test(s)`. -/
def isDigitsOnly (s : Str) : Bool := !s.isEmpty && s.all Char.isDigit

/-- Numeric value of a digit string, `"123" ↦ 123`. -/
def digitsVal (ds : Str) : Nat := ds.foldl (fun acc c => acc * 10 + (c.toNat - 48)) 0

def digitChar (d : Nat) : Char := Char.ofNat (48 + d)

def natToDecAux : Nat → Nat → Str
  | 0, _ => []
  | fuel + 1, n =>
    if n < 10 then [digitChar n] else natToDecAux fuel (n / 10) ++ [digitChar (n % 10)]

/-- Decimal rendering of a natural number. -/
def natToDec (n : Nat) : Str := natToDecAux (n + 1) n

/-- Round to the nearest integer, halves towards positive infinity; the
behaviour of JS `toFixed` on the exact decimal values arising here. -/
def roundQ (q : ℚ) : ℤ := ⌊q + 1 / 2⌋

/-- JS `x.toFixed(2)` for a finite number `x`. -/
def toFixed2 (q : ℚ) : Str :=
  let n := roundQ (q * 100)
  let m := n.natAbs
  (if n < 0 then ['-'] else []) ++
    natToDec (m / 100) ++ '.' :: digitChar (m % 100 / 10) :: [digitChar (m % 100 % 10)]

/-- JS `x.toFixed(2)` where `none` stands for a non-finite number. -/
def toFixed2Opt : Option ℚ → Str
  | none => strLit "NaN"
  | some q => toFixed2 q

def parseSign : Str → Int × Str
  | '-' :: rest => (-1, rest)
  | '+' :: rest => (1, rest)
  | s => (1, s)

/-- Digits of an exponent suffix of JS `parseFloat`; 0 when malformed. -/
def parseExpDigits (r : Str) : Int :=
  let p := parseSign r
  let ds := p.2.takeWhile Char.isDigit
  if ds.isEmpty then 0 else p.1 * (digitsVal ds : Int)

/-- Exponent suffix of JS `parseFloat` (`e5`, `E-3`, ...); 0 when absent. -/
def parseExpPart (s : Str) : Int :=
  match s with
  | 'e' :: r => parseExpDigits r
  | 'E' :: r => parseExpDigits r
  | _ => 0

/-- JS `parseFloat`, idealised over ℚ; `none` models NaN. -/
def parseFloatQ (s : Str) : Option ℚ :=
  let s1 := s.dropWhile Char.isWhitespace
  let sg := parseSign s1
  let intDs := sg.2.takeWhile Char.isDigit
  let r := sg.2.dropWhile Char.isDigit
  let fr : Str × Str :=
    match r with
    | '.' :: t => (t.takeWhile Char.isDigit, t.dropWhile Char.isDigit)
    | _ => ([], r)
  if intDs.isEmpty && fr.1.isEmpty then none
  else
    some ((sg.1 : ℚ) * ((digitsVal intDs : ℚ) + (digitsVal fr.1 : ℚ) / 10 ^ fr.1.length)
      * 10 ^ parseExpPart fr.2)

/-- The regex strip `/[^\d.\-]/g → ""` of `parseNumericField`. -/
def stripNonNumeric (s : Str) : Str :=
  s.filter (fun c => c.isDigit || c == '.' || c == '-')

/-- JS `array.join(c)` for a one-character separator. -/
def joinWith (c : Char) : List Str → Str
  | [] => []
  | [l] => l
  | l :: ls => l ++ c :: joinWith c ls

/-- The message-id list of `disableDealMessagesForRecord` (server.js 333-336):
`String(raw).split(",").map(trim).filter(Boolean)`. -/
def splitMessageIds (raw : Str) : List Str :=
  ((jsSplit raw [',']).map jsTrim).filter (fun s => !s.isEmpty)

/-- A loosely-typed Airtable field value: a number, a string, or unset. -/
inductive FieldVal
  | num (q : ℚ)
  | str (s : Str)
  | empty
deriving DecidableEq

/-- `parseNumericField` (server.js 83-90); `Number.isFinite` folds into the
`Option`. -/
def parseNumericField : FieldVal → Option ℚ
  | .num q => some q
  | .str s => parseFloatQ (stripNonNumeric (jsReplaceFirst s [','] ['.']))
  | .empty => none

/-- An entry of a `Linked Orders` cell: the client returns record-id strings
or `{id, name}` objects (server.js 155-169). -/
inductive LinkVal
  | strId (s : Str)
  | obj (oid : Str)
deriving DecidableEq

/-- A `Partner Offers` record; `linkedOrders = none` models a missing or
non-array cell. -/
structure OfferRec where
  partnerOffer : FieldVal
  offerDate : Str
  sellerId : List Str
  linkedOrders : Option (List LinkVal)
deriving DecidableEq

/-- An `Unfulfilled Orders Log` record (the fields the source reads);
an empty string models an unset text field. -/
structure OrderRec where
  id : Str
  partnerDealMessageId : Str
  buttonsDisabled : Bool
  productName : Str
  sku : Str
  size : Str
  brand : Str
  targetOutsourceBuyingPrice : FieldVal
  orderId : Str
deriving DecidableEq

/-- A `Sellers Database` record. -/
structure SellerRec where
  id : Str
  sellerId : Str
  discordWebhookUrl : Option Str
deriving DecidableEq

/-- An `Inventory Units` record as created by a claim (server.js 611-630 and
815-833). -/
structure InvRec where
  productName : Str
  sku : Str
  size : Str
  brand : Str
  vatType : Str
  purchasePrice : Option ℚ
  shippingDeduction : ℚ
  ticketNumber : Str
  purchaseDate : Str
  source : Str
  verificationStatus : Str
  paymentNote : Str
  paymentStatus : Str
  availabilityStatus : Str
  marginPct : Str
  typ : Str
  sellerId : List Str
  unfulfilledOrdersLog : Option (List Str)
deriving DecidableEq

/-- The external tabular store (the four Airtable tables). -/
structure Store where
  orders : List OrderRec
  sellers : List SellerRec
  partnerOffers : List OfferRec
  inventory : List InvRec
deriving DecidableEq

/-- `MIN_UNDERCUT_STEP` (server.js 78). -/
def MIN_UNDERCUT_STEP : ℚ := 2.5

/-- The epsilon tolerance `1e-9` of the undercut comparison (server.js 912). -/
def UNDERCUT_EPS : ℚ := 1e-9

/-- `findOrderRecordIdByMessageId` (server.js 107-116): the Airtable SEARCH
formula is a substring test on the comma-joined message-id field, first
match wins. -/
def findOrderRecordIdByMessageId (orders : List OrderRec) (messageId : Str) : Option Str :=
  (orders.find? (fun o => containsSub o.partnerDealMessageId messageId)).map (fun o => o.id)

/-- `findSellerRecordIdByCode` (server.js 122-136). -/
def findSellerRecordIdByCode (sellers : List SellerRec) (sellerCode : Str) : Option Str :=
  if sellerCode.isEmpty then none
  else (sellers.find? (fun r => r.sellerId == sellerCode)).map (fun r => r.id)

def linkMatches (orderRecordId : Str) : LinkVal → Bool
  | .strId s => s == orderRecordId
  | .obj oid => oid == orderRecordId

/-- `getCurrentLowestPartnerOffer` (server.js 143-186): scan all offers,
keep those linked to the order, fold the minimum of the parseable amounts. -/
def getCurrentLowestPartnerOffer (offers : List OfferRec) (orderRecordId : Str) : Option ℚ :=
  let offersForOrder := offers.filter (fun r =>
    match r.linkedOrders with
    | none => false
    | some links => links.any (linkMatches orderRecordId))
  offersForOrder.foldl (fun best r =>
    match parseNumericField r.partnerOffer with
    | none => best
    | some price =>
      match best with
      | none => some price
      | some b => if price < b then some price else best) none

/-- `getSellerWebhookUrlByRecordId` (server.js 192-204); a client rejection
is caught and becomes `none`. -/
def getSellerWebhookUrlByRecordId (sellers : List SellerRec) (sellerRecordId : Str) :
    Option Str :=
  match sellers.find? (fun r => r.id == sellerRecordId) with
  | none => none
  | some r =>
    match r.discordWebhookUrl with
    | none => none
    | some u => if (jsTrim u).isEmpty then none else some (jsTrim u)

/-- The payload of `POST /partner-deal` (server.js 385-394); an empty string
models an absent (falsy) optional field. -/
structure DealPayload where
  productName : Str
  sku : Str
  size : Str
  brand : Str
  startPayout : ℚ
  imageUrl : Str
  dealId : Str
deriving DecidableEq

def labelProductName : Str := strLit "**Product Name:**"
def labelSKU : Str := strLit "**SKU:**"
def labelSize : Str := strLit "**Size:**"
def labelBrand : Str := strLit "**Brand:**"
def labelPayout : Str := strLit "**Payout:**"
def labelOrderId : Str := strLit "**Order ID:**"

/-- `descriptionLines` of `POST /partner-deal` (server.js 400-407): one
labelled line per present field, the payout with two decimals and a
currency sign, the order-id line only when `dealId` is truthy. -/
def renderDescriptionLines (d : DealPayload) : List Str :=
  [labelProductName ++ ' ' :: d.productName,
   labelSKU ++ ' ' :: d.sku,
   labelSize ++ ' ' :: d.size,
   labelBrand ++ ' ' :: d.brand,
   labelPayout ++ ' ' :: '€' :: toFixed2 d.startPayout] ++
  (if d.dealId.isEmpty then [] else [labelOrderId ++ ' ' :: d.dealId])

def renderDescription (d : DealPayload) : Str := joinWith '\n' (renderDescriptionLines d)

/-- The posted card: the description text block plus the optional embed
image (`embed.setImage`, server.js 414-416).  The image is carried by the
embed, not by the text. -/
structure DealCard where
  description : Str
  image : Option Str
deriving DecidableEq

def renderDealCard (d : DealPayload) : DealCard :=
  { description := renderDescription d,
    image := if d.imageUrl.isEmpty then none else some d.imageUrl }

/-- `getValueFromLines` (server.js 97-101). -/
def getValueFromLines (lines : List Str) (label : Str) : Str :=
  match lines.find? (fun l => jsStartsWith l label) with
  | none => []
  | some line => jsTrim ((jsSplit line label).getD 1 [])

/-- The fields the modal handler recovers from a card description. -/
structure ParsedDeal where
  productName : Str
  sku : Str
  size : Str
  brand : Str
  startPayout : Option ℚ
  orderId : Str
deriving DecidableEq

/-- The modal parse of a card description (server.js 778-790, up to and
excluding the `|| messageId` fallback on the order id). -/
def parseDescription (description : Str) : ParsedDeal :=
  let lines := jsSplit description ['\n']
  { productName := getValueFromLines lines labelProductName,
    sku := getValueFromLines lines labelSKU,
    size := getValueFromLines lines labelSize,
    brand := getValueFromLines lines labelBrand,
    startPayout := parseFloatQ (jsOr
      (jsReplaceFirst (jsReplaceFirst (getValueFromLines lines labelPayout) ['€'] []) [','] ['.'])
      (strLit "0")),
    orderId := getValueFromLines lines labelOrderId }

/-- The external calls a handler performs, in order. -/
inductive Effect
  | airOrdersSearch (messageId : Str)
  | airSellersSearch (code : Str)
  | airSellerFind (recId : Str)
  | airOffersSelectAll
  | airOrdersFind (recId : Str)
  | airInventoryCreate
  | airOffersCreate
  | airOrdersUpdate (recId : Str) (disabled : Bool)
  | webhookSeller (url : Str)
  | webhookMake (orderRecordId : Str)
  | discordFetchMsg (channelId : Str) (msgId : Str)
  | discordEditMsg (channelId : Str) (msgId : Str)
deriving DecidableEq

/-- Whether an effect is a call to the external tabular store. -/
def Effect.isStoreCall : Effect → Bool
  | airOrdersSearch _ | airSellersSearch _ | airSellerFind _ | airOffersSelectAll
  | airOrdersFind _ | airInventoryCreate | airOffersCreate | airOrdersUpdate _ _ => true
  | _ => false

structure DiscordMsg where
  id : Str
  description : Option Str
  buttonsDisabled : Bool
deriving DecidableEq

structure DiscordChannel where
  id : Str
  messages : List DiscordMsg
deriving DecidableEq

structure DiscordState where
  channels : List DiscordChannel
deriving DecidableEq

/-- Process configuration plus fault injection for the best-effort external
calls; a `...Fails` flag makes every call of that kind throw. -/
structure Env where
  dealsChannelIds : List Str
  today : Str
  makeWebhookConfigured : Bool
  sellerWebhookFails : Bool
  makeWebhookFails : Bool
  discordEditFails : Bool
  ordersUpdateFails : Bool
deriving DecidableEq

def setMsgDisabled (mid : Str) (m : DiscordMsg) : DiscordMsg :=
  if m.id == mid then { m with buttonsDisabled := true } else m

/-- Replace the interactive components of one message by their disabled
variant (server.js 352-360). -/
def editMsgInChannel (ch : DiscordChannel) (mid : Str) : DiscordChannel :=
  { ch with messages := ch.messages.map (setMsgDisabled mid) }

/-- Inner loop of `disableDealMessagesForRecord` (server.js 348-361) over one
channel: fetch each message (a missing message is skipped), edit its buttons
to disabled.  The `Bool` of the result is true when an edit threw; the source
does not catch `msg.edit`, so the throw propagates. -/
def disableMsgsInChannel (env : Env) : DiscordChannel → List Str →
    DiscordChannel × List Effect × Bool
  | ch, [] => (ch, [], false)
  | ch, mid :: rest =>
    match ch.messages.find? (fun m => m.id == mid) with
    | none =>
      let r := disableMsgsInChannel env ch rest
      (r.1, Effect.discordFetchMsg ch.id mid :: r.2.1, r.2.2)
    | some _ =>
      if env.discordEditFails then (ch, [Effect.discordFetchMsg ch.id mid], true)
      else
        let r := disableMsgsInChannel env (editMsgInChannel ch mid) rest
        (r.1, Effect.discordFetchMsg ch.id mid :: Effect.discordEditMsg ch.id mid :: r.2.1,
          r.2.2)

def replaceChannel (ds : DiscordState) (ch : DiscordChannel) (cid : Str) : DiscordState :=
  { channels := ds.channels.map (fun c => if c.id == cid then ch else c) }

/-- Outer loop of `disableDealMessagesForRecord` (server.js 344-362): for
each configured deal channel (a missing channel is skipped), disable every
listed message. -/
def disableFanout (env : Env) (msgIds : List Str) : DiscordState → List Str →
    DiscordState × List Effect × Bool
  | ds, [] => (ds, [], false)
  | ds, cid :: rest =>
    match ds.channels.find? (fun c => c.id == cid) with
    | none => disableFanout env msgIds ds rest
    | some ch =>
      let r := disableMsgsInChannel env ch msgIds
      let ds1 := replaceChannel ds r.1 cid
      if r.2.2 then (ds1, r.2.1, true)
      else
        let r2 := disableFanout env msgIds ds1 rest
        (r2.1, r.2.1 ++ r2.2.1, r2.2.2)

/-- `disableDealMessagesForRecord` (server.js 319-363).  The Airtable client
rejects `find` on a missing record id — the `/interface-claim` handler of the
source catches exactly that to answer 404 — so the unreachable
`if (!orderRecord)` guard is modelled as a thrown error (`Bool` = threw). -/
def disableDealMessagesForRecord (env : Env) (st : Store) (ds : DiscordState)
    (orderRecordId : Str) : DiscordState × List Effect × Bool :=
  match st.orders.find? (fun o => o.id == orderRecordId) with
  | none => (ds, [Effect.airOrdersFind orderRecordId], true)
  | some order =>
    if order.partnerDealMessageId.isEmpty then
      (ds, [Effect.airOrdersFind orderRecordId], false)
    else
      let msgIds := splitMessageIds order.partnerDealMessageId
      if msgIds.isEmpty then (ds, [Effect.airOrdersFind orderRecordId], false)
      else
        let r := disableFanout env msgIds ds env.dealsChannelIds
        (r.1, Effect.airOrdersFind orderRecordId :: r.2.1, r.2.2)

/-- The `Partner Deal Buttons Disabled` update; an update on a missing record
throws and is caught at every call site, leaving the store unchanged either
way. -/
def updateOrderFlag (st : Store) (recId : Str) (b : Bool) : Store :=
  { st with orders := st.orders.map (fun o =>
      if o.id == recId then { o with buttonsDisabled := b } else o) }

/-- The responses of `POST /partner-deal/disable` (server.js 538-560). -/
inductive DisableResp
  | ok
  | missingRecordId
  | internalError
deriving DecidableEq

def DisableResp.status : DisableResp → Nat
  | ok => 200
  | missingRecordId => 400
  | internalError => 500

/-- `POST /partner-deal/disable` (server.js 538-560): fan out unconditionally
(the disabled flag is never read), then best-effort set the flag. -/
def postPartnerDealDisable (env : Env) (st : Store) (ds : DiscordState)
    (recordId : Option Str) : Store × DiscordState × List Effect × DisableResp :=
  match recordId with
  | none => (st, ds, [], DisableResp.missingRecordId)
  | some rid =>
    if rid.isEmpty then (st, ds, [], DisableResp.missingRecordId)
    else
      let r := disableDealMessagesForRecord env st ds rid
      if r.2.2 then (st, r.1, r.2.1, DisableResp.internalError)
      else
        let effs := r.2.1 ++ [Effect.airOrdersUpdate rid true]
        if env.ordersUpdateFails then (st, r.1, effs, DisableResp.ok)
        else (updateOrderFlag st rid true, r.1, effs, DisableResp.ok)

/-- The fixed field set persisted by a successful claim (server.js 611-630
and 815-837). -/
def mkInventoryFields (today : Str) (productName sku size brand : Str)
    (startPayout : Option ℚ) (dealId : Str) (sellerRecordId : Str)
    (orderLink : Option Str) : InvRec :=
  { productName := productName, sku := sku, size := size, brand := brand,
    vatType := strLit "Margin",
    purchasePrice := startPayout,
    shippingDeduction := 0,
    ticketNumber := dealId,
    purchaseDate := today,
    source := strLit "Outsourced",
    verificationStatus := strLit "Verified",
    paymentNote := jsReplaceFirst (toFixed2Opt startPayout) ['.'] [','],
    paymentStatus := strLit "To Pay",
    availabilityStatus := strLit "Reserved",
    marginPct := strLit "10%",
    typ := strLit "Custom",
    sellerId := [sellerRecordId],
    unfulfilledOrdersLog := orderLink.map (fun oid => [oid]) }

/-- `sendSellerClaimWebhook` (server.js 206-249): skipped without a url, a
fetch failure is swallowed. -/
def sellerWebhookEffects : Option Str → List Effect
  | none => []
  | some url => [Effect.webhookSeller url]

/-- `sendMakeClaimMakeWebhook` (server.js 257-281): silently skipped when not
configured, a fetch failure is swallowed. -/
def makeWebhookEffects (env : Env) (orderRecordId : Str) : List Effect :=
  if env.makeWebhookConfigured then [Effect.webhookMake orderRecordId] else []

/-- The responses of `POST /interface-claim` (server.js 572-668). -/
inductive ClaimResp
  | missingParams
  | noSeller (code : Str)
  | orderNotFound
  | invalidPayout
  | claimed (productName : Str) (size : Str) (sellerCode : Str)
deriving DecidableEq

def ClaimResp.status : ClaimResp → Nat
  | missingParams => 400
  | noSeller _ => 400
  | orderNotFound => 404
  | invalidPayout => 400
  | claimed _ _ _ => 200

/-- Step 5 of a claim with a resolved order (server.js 647-655 and 854-866):
try to fan out the disable and set the flag, catching and logging failures;
then notify the automation webhook. -/
def claimDisableStage (env : Env) (st : Store) (ds : DiscordState) (oid : Str) :
    Store × DiscordState × List Effect :=
  let r := disableDealMessagesForRecord env st ds oid
  if r.2.2 then (st, r.1, r.2.1 ++ makeWebhookEffects env oid)
  else
    let effs := r.2.1 ++ [Effect.airOrdersUpdate oid true] ++ makeWebhookEffects env oid
    if env.ordersUpdateFails then (st, r.1, effs)
    else (updateOrderFlag st oid true, r.1, effs)

/-- `POST /interface-claim` (server.js 572-668). -/
def postInterfaceClaim (env : Env) (st : Store) (ds : DiscordState)
    (orderRecordId sellerCode : Option Str) :
    Store × DiscordState × List Effect × ClaimResp :=
  match orderRecordId, sellerCode with
  | some oid, some code =>
    if oid.isEmpty || code.isEmpty then (st, ds, [], ClaimResp.missingParams)
    else
      match findSellerRecordIdByCode st.sellers code with
      | none => (st, ds, [Effect.airSellersSearch code], ClaimResp.noSeller code)
      | some sellerRecordId =>
        match st.orders.find? (fun o => o.id == oid) with
        | none =>
          (st, ds, [Effect.airSellersSearch code, Effect.airOrdersFind oid],
            ClaimResp.orderNotFound)
        | some order =>
          match parseNumericField order.targetOutsourceBuyingPrice with
          | none =>
            (st, ds, [Effect.airSellersSearch code, Effect.airOrdersFind oid],
              ClaimResp.invalidPayout)
          | some startPayout =>
            let dealId := jsOr order.orderId oid
            let newRec := mkInventoryFields env.today order.productName order.sku
              order.size order.brand (some startPayout) dealId sellerRecordId (some oid)
            let st1 : Store := { st with inventory := st.inventory ++ [newRec] }
            let whUrl := getSellerWebhookUrlByRecordId st1.sellers sellerRecordId
            let stage := claimDisableStage env st1 ds oid
            (stage.1, stage.2.1,
              [Effect.airSellersSearch code, Effect.airOrdersFind oid,
                Effect.airInventoryCreate, Effect.airSellerFind sellerRecordId] ++
                sellerWebhookEffects whUrl ++ stage.2.2,
              ClaimResp.claimed order.productName order.size code)
  | _, _ => (st, ds, [], ClaimResp.missingParams)

/-- A modal submission as delivered by the chat platform. -/
structure ModalInput where
  channelId : Str
  customId : Str
  sellerIdInput : Str
  offerPriceInput : Str
deriving DecidableEq

/-- The one ephemeral acknowledgement of a modal submission, abstracted to
the message kind plus the data interpolated into its text. -/
inductive Reply
  | couldNotFindMessage
  | missingDealDetails
  | digitsOnly
  | sellerNotFound (code : Str)
  | claimSuccess (productName : Str) (size : Str) (sellerCode : Str)
  | invalidOfferAmount
  | offerTooHigh (lowestExisting : ℚ) (maxAllowed : ℚ)
  | offerSuccess (productName : Str) (size : Str) (sellerCode : Str) (offer : ℚ)
deriving DecidableEq

structure ModalResult where
  store : Store
  discord : DiscordState
  effects : List Effect
  reply : Option Reply
deriving DecidableEq

/-- The fallback edit of server.js 869-879: disable the buttons of the one
triggering message only. -/
def replaceChannelEdit (ds : DiscordState) (cid mid : Str) : DiscordState :=
  { channels := ds.channels.map (fun c => if c.id == cid then editMsgInChannel c mid else c) }

/-- The `partner_claim_modal` branch (server.js 814-890), entered after
seller resolution: persist the inventory record, best-effort notify the
seller webhook, then disable buttons (all copies and the flag when the order
resolved, else just the triggering message), then notify the automation
webhook; every post-persist failure is caught. -/
def partnerClaimModalPath (env : Env) (st : Store) (ds : DiscordState)
    (channelId messageId : Str) (pd : ParsedDeal) (dealId : Str)
    (orderRecordId : Option Str) (sellerRecordId sellerCode : Str) : ModalResult :=
  let newRec := mkInventoryFields env.today pd.productName pd.sku pd.size pd.brand
    pd.startPayout dealId sellerRecordId orderRecordId
  let st1 : Store := { st with inventory := st.inventory ++ [newRec] }
  let whUrl := getSellerWebhookUrlByRecordId st1.sellers sellerRecordId
  let effs0 := Effect.airInventoryCreate :: Effect.airSellerFind sellerRecordId ::
    sellerWebhookEffects whUrl
  match orderRecordId with
  | some oid =>
    let stage := claimDisableStage env st1 ds oid
    { store := stage.1, discord := stage.2.1,
      effects := effs0 ++ stage.2.2,
      reply := some (Reply.claimSuccess pd.productName pd.size sellerCode) }
  | none =>
    if env.discordEditFails then
      { store := st1, discord := ds, effects := effs0,
        reply := some (Reply.claimSuccess pd.productName pd.size sellerCode) }
    else
      { store := st1, discord := replaceChannelEdit ds channelId messageId,
        effects := effs0 ++ [Effect.discordEditMsg channelId messageId],
        reply := some (Reply.claimSuccess pd.productName pd.size sellerCode) }

/-- Persisting an accepted offer (server.js 927-946). -/
def offerPersist (env : Env) (st : Store) (ds : DiscordState) (pd : ParsedDeal)
    (orderRecordId : Option Str) (sellerRecordId sellerCode : Str)
    (offerPrice : ℚ) (preEffs : List Effect) : ModalResult :=
  let newRec : OfferRec :=
    { partnerOffer := FieldVal.num offerPrice,
      offerDate := env.today,
      sellerId := [sellerRecordId],
      linkedOrders := orderRecordId.map (fun oid => [LinkVal.strId oid]) }
  { store := { st with partnerOffers := st.partnerOffers ++ [newRec] },
    discord := ds,
    effects := preEffs ++ [Effect.airOffersCreate],
    reply := some (Reply.offerSuccess pd.productName pd.size sellerCode offerPrice) }

/-- The `partner_offer_modal` branch (server.js 893-947), entered after
seller resolution: validate the amount, enforce the undercut rule against
the current lowest offer when the order resolved, persist on acceptance. -/
def partnerOfferModalPath (env : Env) (st : Store) (ds : DiscordState)
    (pd : ParsedDeal) (orderRecordId : Option Str)
    (sellerRecordId sellerCode : Str) (offerPriceInput : Str) : ModalResult :=
  let rawOffer := jsTrim offerPriceInput
  match parseFloatQ (jsOr (jsReplaceFirst rawOffer [','] ['.']) (strLit "0")) with
  | none =>
    { store := st, discord := ds, effects := [], reply := some Reply.invalidOfferAmount }
  | some offerPrice =>
    if offerPrice ≤ 0 then
      { store := st, discord := ds, effects := [], reply := some Reply.invalidOfferAmount }
    else
      match orderRecordId with
      | some oid =>
        match getCurrentLowestPartnerOffer st.partnerOffers oid with
        | some lowestExisting =>
          let maxAllowed := lowestExisting - MIN_UNDERCUT_STEP
          if ¬ (offerPrice ≤ maxAllowed + UNDERCUT_EPS) then
            { store := st, discord := ds, effects := [Effect.airOffersSelectAll],
              reply := some (Reply.offerTooHigh lowestExisting maxAllowed) }
          else
            offerPersist env st ds pd (some oid) sellerRecordId sellerCode offerPrice
              [Effect.airOffersSelectAll]
        | none =>
          offerPersist env st ds pd (some oid) sellerRecordId sellerCode offerPrice
            [Effect.airOffersSelectAll]
      | none =>
        offerPersist env st ds pd none sellerRecordId sellerCode offerPrice []

/-- The modal-submit handler (server.js 751-948): guard on channel and
custom-id, fetch the triggering message, parse the card, resolve the order
from the message id, validate the seller code, resolve the seller, then
dispatch on the modal kind. -/
def handleModalSubmit (env : Env) (st : Store) (ds : DiscordState) (inp : ModalInput) :
    ModalResult :=
  if !(env.dealsChannelIds.any (fun c => c == inp.channelId)) ||
     !(jsStartsWith inp.customId (strLit "partner_")) then
    { store := st, discord := ds, effects := [], reply := none }
  else
    let parts := jsSplit inp.customId [':']
    let pfx := parts.headD []
    let messageId := parts.getD 1 []
    match ds.channels.find? (fun c => c.id == inp.channelId) with
    | none =>
      { store := st, discord := ds, effects := [], reply := some Reply.couldNotFindMessage }
    | some channel =>
      let fetchEff := [Effect.discordFetchMsg inp.channelId messageId]
      match channel.messages.find? (fun m => m.id == messageId) with
      | none =>
        { store := st, discord := ds, effects := fetchEff,
          reply := some Reply.missingDealDetails }
      | some msg =>
        match msg.description with
        | none =>
          { store := st, discord := ds, effects := fetchEff,
            reply := some Reply.missingDealDetails }
        | some descr =>
          if descr.isEmpty then
            { store := st, discord := ds, effects := fetchEff,
              reply := some Reply.missingDealDetails }
          else
            let pd := parseDescription descr
            let dealId := jsOr pd.orderId messageId
            let orderRecordId := findOrderRecordIdByMessageId st.orders messageId
            let effsPre := fetchEff ++ [Effect.airOrdersSearch messageId]
            let sellerNumberRaw := jsTrim inp.sellerIdInput
            if !(isDigitsOnly sellerNumberRaw) then
              { store := st, discord := ds, effects := effsPre,
                reply := some Reply.digitsOnly }
            else
              let sellerCode := strLit "SE-" ++ sellerNumberRaw
              match findSellerRecordIdByCode st.sellers sellerCode with
              | none =>
                { store := st, discord := ds,
                  effects := effsPre ++ [Effect.airSellersSearch sellerCode],
                  reply := some (Reply.sellerNotFound sellerCode) }
              | some sellerRecordId =>
                let effs1 := effsPre ++ [Effect.airSellersSearch sellerCode]
                if pfx == strLit "partner_claim_modal" then
                  let r := partnerClaimModalPath env st ds inp.channelId messageId pd
                    dealId orderRecordId sellerRecordId sellerCode
                  { r with effects := effs1 ++ r.effects }
                else if pfx == strLit "partner_offer_modal" then
                  let r := partnerOfferModalPath env st ds pd orderRecordId
                    sellerRecordId sellerCode inp.offerPriceInput
                  { r with effects := effs1 ++ r.effects }
                else
                  { store := st, discord := ds, effects := effs1, reply := none }

/-! Concrete fixtures used by the closed counterexamples and the witnesses. -/

/-- A card description as rendered by `POST /partner-deal` for a concrete deal. -/
def descr0 : Str := strLit
  "**Product Name:** Shoe A\n**SKU:** SKU1\n**Size:** 42\n**Brand:** B\n**Payout:** €100.00\n**Order ID:** ORD-1"

/-- The parse of `descr0`. -/
def pd0 : ParsedDeal :=
  { productName := strLit "Shoe A", sku := strLit "SKU1", size := strLit "42",
    brand := strLit "B", startPayout := some (100 : ℚ), orderId := strLit "ORD-1" }

def env0 : Env :=
  { dealsChannelIds := [strLit "ch1"], today := strLit "2026-10-12",
    makeWebhookConfigured := true, sellerWebhookFails := false, makeWebhookFails := false,
    discordEditFails := false, ordersUpdateFails := false }

/-- Same configuration with every best-effort external call failing. -/
def envFail : Env :=
  { dealsChannelIds := [strLit "ch1"], today := strLit "2026-10-12",
    makeWebhookConfigured := true, sellerWebhookFails := true, makeWebhookFails := true,
    discordEditFails := false, ordersUpdateFails := true }

def seller0 : SellerRec :=
  { id := strLit "selRec1", sellerId := strLit "SE-00007",
    discordWebhookUrl := some (strLit "https://hook.example") }

def order0 : OrderRec :=
  { id := strLit "rec1", partnerDealMessageId := strLit "m1", buttonsDisabled := false,
    productName := strLit "Shoe A", sku := strLit "SKU1", size := strLit "42",
    brand := strLit "B", targetOutsourceBuyingPrice := FieldVal.num 100,
    orderId := strLit "ORD-1" }

def msg0 : DiscordMsg := { id := strLit "m1", description := some descr0, buttonsDisabled := false }

def ch0 : DiscordChannel := { id := strLit "ch1", messages := [msg0] }

def ds0 : DiscordState := { channels := [ch0] }

/-- A posted copy of the card without the description (the disable flows never
read it; keeping it out makes the closed computations small). -/
def msgD : DiscordMsg := { id := strLit "m1", description := none, buttonsDisabled := false }

def chD : DiscordChannel := { id := strLit "ch1", messages := [msgD] }

def dsD : DiscordState := { channels := [chD] }

def st0 : Store := { orders := [order0], sellers := [seller0], partnerOffers := [], inventory := [] }

def inpClaim : ModalInput :=
  { channelId := strLit "ch1", customId := strLit "partner_claim_modal:m1",
    sellerIdInput := strLit "00007", offerPriceInput := [] }

def inpBad : ModalInput :=
  { channelId := strLit "ch1", customId := strLit "partner_claim_modal:m1",
    sellerIdInput := strLit "abc12", offerPriceInput := [] }

def offer100 : OfferRec :=
  { partnerOffer := FieldVal.num 100, offerDate := strLit "2026-10-01",
    sellerId := [strLit "selRec9"], linkedOrders := some [LinkVal.strId (strLit "rec1")] }

/-- `st0` with one existing accepted offer of 100 for the order. -/
def stOffers : Store := { st0 with partnerOffers := [offer100] }

def inpOffer975 : ModalInput :=
  { channelId := strLit "ch1", customId := strLit "partner_offer_modal:m1",
    sellerIdInput := strLit "00007", offerPriceInput := strLit "97.50" }

def inpOffer980 : ModalInput :=
  { channelId := strLit "ch1", customId := strLit "partner_offer_modal:m1",
    sellerIdInput := strLit "00007", offerPriceInput := strLit "98.00" }

/-- An order whose stored message ids do not contain `m1`: the triggering
message resolves to no order record. -/
def order9 : OrderRec := { order0 with partnerDealMessageId := strLit "mOTHER" }

def st9 : Store := { st0 with orders := [order9] }

/-- `st9` with an existing lower offer in the store (linked to `rec1`); the
order of a submission on message `m1` still resolves to none. -/
def st10 : Store := { st9 with partnerOffers := [offer100] }

/-- First `/interface-claim` call on the fixture order. -/
def icRun1 : Store × DiscordState × List Effect × ClaimResp :=
  postInterfaceClaim env0 st0 dsD (some (strLit "rec1")) (some (strLit "SE-00007"))

/-- Second `/interface-claim` call on the same order, after the first. -/
def icRun2 : Store × DiscordState × List Effect × ClaimResp :=
  postInterfaceClaim env0 icRun1.1 icRun1.2.1 (some (strLit "rec1")) (some (strLit "SE-00007"))

/-- First `POST /partner-deal/disable` call on the fixture order. -/
def dRun1 : Store × DiscordState × List Effect × DisableResp :=
  postPartnerDealDisable env0 st0 dsD (some (strLit "rec1"))

/-- Second `POST /partner-deal/disable` call on the same order, after the first. -/
def dRun2 : Store × DiscordState × List Effect × DisableResp :=
  postPartnerDealDisable env0 dRun1.1 dRun1.2.1 (some (strLit "rec1"))

/-- A deal payload whose product name carries a trailing space. -/
def dealSpace : DealPayload :=
  { productName := strLit "Shoe A ", sku := strLit "SKU1", size := strLit "42",
    brand := strLit "B", startPayout := (100 : ℚ), imageUrl := [], dealId := [] }

/-- A deal payload with clean field values and both optional fields set. -/
def dealClean : DealPayload :=
  { productName := strLit "Shoe A", sku := strLit "SKU1", size := strLit "42",
    brand := strLit "B", startPayout := (100 : ℚ), imageUrl := strLit "https://img.example",
    dealId := strLit "ORD-1" }

/-- Hygiene condition on a rendered field value: stable under trimming, no
line break, and not containing its own label.  The round-trip theorem below
shows these suffice; the trailing-space counterexample shows trim-stability
is necessary. -/
def cleanValue (v label : Str) : Bool :=
  (jsTrim v == v) && !(containsSub v ['\n']) && !(containsSub v label)

/-- Pointwise form of the fan-out on one message: disabled when listed. -/
def setDisabledIf (ids : List Str) (m : DiscordMsg) : DiscordMsg :=
  if ids.contains m.id then { m with buttonsDisabled := true } else m

/-- Pointwise form of the fan-out on one channel. -/
def applyDisable (ids : List Str) (ch : DiscordChannel) : DiscordChannel :=
  { ch with messages := ch.messages.map (setDisabledIf ids) }

/-- Pointwise form of the fan-out on the whole Discord state. -/
def applyDisableAll (cids : List Str) (ids : List Str) (ds : DiscordState) : DiscordState :=
  { channels := ds.channels.map (fun c => if cids.contains c.id then applyDisable ids c else c) }

/-- The effect trace of the per-channel disable loop, as a function of the
channel id, the ids of the messages present, and the listed message ids. -/
def msgEffects (cid : Str) (mids : List Str) : List Str → List Effect
  | [] => []
  | mid :: rest =>
    if mids.contains mid then
      Effect.discordFetchMsg cid mid :: Effect.discordEditMsg cid mid :: msgEffects cid mids rest
    else
      Effect.discordFetchMsg cid mid :: msgEffects cid mids rest

/-- The effect trace of the cross-channel fan-out. -/
def fanEffects (ds : DiscordState) (ids : List Str) : List Str → List Effect
  | [] => []
  | cid :: rest =>
    match ds.channels.find? (fun c => c.id == cid) with
    | none => fanEffects ds ids rest
    | some ch => msgEffects cid (ch.messages.map (fun m => m.id)) ids ++ fanEffects ds ids rest


/-- An inventory record persisted by an earlier claim of the fixture order. -/
def prevClaim : InvRec :=
  mkInventoryFields (strLit "2026-10-01") (strLit "Shoe A") (strLit "SKU1") (strLit "42")
    (strLit "B") (some (100 : ℚ)) (strLit "ORD-1") (strLit "selRec1") (some (strLit "rec1"))

/-- The fixture store with a claim for the order already persisted. -/
def stDup : Store := { st0 with inventory := [prevClaim] }

/-! Helper lemmas about the claim and offer paths. -/


lemma updateOrderFlag_inventory (st : Store) (rid : Str) (b : Bool) :
    (updateOrderFlag st rid b).inventory = st.inventory := rfl

lemma claimDisableStage_store (env : Env) (st : Store) (ds : DiscordState) (oid : Str) :
    (claimDisableStage env st ds oid).1.inventory = st.inventory ∧
    (claimDisableStage env st ds oid).1.sellers = st.sellers ∧
    (claimDisableStage env st ds oid).1.partnerOffers = st.partnerOffers := by
  unfold claimDisableStage
  rcases h1 : (disableDealMessagesForRecord env st ds oid).2.2 with _ | _ <;>
    rcases h2 : env.ordersUpdateFails with _ | _ <;>
      simp [h1, h2, updateOrderFlag]

lemma partnerClaimModalPath_core (env : Env) (st : Store) (ds : DiscordState)
    (cid mid : Str) (pd : ParsedDeal) (dealId : Str) (oid : Option Str) (sid scode : Str) :
    (partnerClaimModalPath env st ds cid mid pd dealId oid sid scode).store.inventory
      = st.inventory ++ [mkInventoryFields env.today pd.productName pd.sku pd.size pd.brand
          pd.startPayout dealId sid oid] ∧
    (partnerClaimModalPath env st ds cid mid pd dealId oid sid scode).reply
      = some (Reply.claimSuccess pd.productName pd.size scode) := by
  unfold partnerClaimModalPath
  cases oid with
  | some o => exact ⟨(claimDisableStage_store env _ ds o).1, rfl⟩
  | none => by_cases h : env.discordEditFails <;> simp [h]


lemma partnerClaimModalPath_noorder (env : Env) (st : Store) (ds : DiscordState)
    (cid mid : Str) (pd : ParsedDeal) (dealId : Str) (sid scode : Str)
    (hedit : env.discordEditFails = false) :
    partnerClaimModalPath env st ds cid mid pd dealId none sid scode =
      { store := { st with inventory := st.inventory ++ [mkInventoryFields env.today
            pd.productName pd.sku pd.size pd.brand pd.startPayout dealId sid none] },
        discord := replaceChannelEdit ds cid mid,
        effects := Effect.airInventoryCreate :: Effect.airSellerFind sid ::
          sellerWebhookEffects (getSellerWebhookUrlByRecordId st.sellers sid) ++
            [Effect.discordEditMsg cid mid],
        reply := some (Reply.claimSuccess pd.productName pd.size scode) } := by
  unfold partnerClaimModalPath
  simp [hedit]

lemma partnerOfferModalPath_invalid (env : Env) (st : Store) (ds : DiscordState)
    (pd : ParsedDeal) (oid : Option Str) (sid scode raw : Str)
    (hbad : parseFloatQ (jsOr (jsReplaceFirst (jsTrim raw) [','] ['.']) (strLit "0")) = none ∨
      ∃ a, parseFloatQ (jsOr (jsReplaceFirst (jsTrim raw) [','] ['.']) (strLit "0")) = some a ∧ a ≤ 0) :
    partnerOfferModalPath env st ds pd oid sid scode raw =
      { store := st, discord := ds, effects := [], reply := some Reply.invalidOfferAmount } := by
  unfold partnerOfferModalPath
  rcases hbad with h | ⟨a, h, ha⟩ <;> simp [h]
  intro hc
  exact absurd ha (not_le.mpr hc)

lemma partnerOfferModalPath_none_accepts (env : Env) (st : Store) (ds : DiscordState)
    (pd : ParsedDeal) (sid scode raw : Str) (a : ℚ)
    (hparse : parseFloatQ (jsOr (jsReplaceFirst (jsTrim raw) [','] ['.']) (strLit "0")) = some a)
    (hpos : 0 < a) :
    partnerOfferModalPath env st ds pd none sid scode raw =
      offerPersist env st ds pd none sid scode a [] := by
  unfold partnerOfferModalPath
  simp [hparse, hpos.not_le]

lemma partnerOfferModalPath_some_nolow (env : Env) (st : Store) (ds : DiscordState)
    (pd : ParsedDeal) (oid : Str) (sid scode raw : Str) (a : ℚ)
    (hparse : parseFloatQ (jsOr (jsReplaceFirst (jsTrim raw) [','] ['.']) (strLit "0")) = some a)
    (hpos : 0 < a)
    (hlow : getCurrentLowestPartnerOffer st.partnerOffers oid = none) :
    partnerOfferModalPath env st ds pd (some oid) sid scode raw =
      offerPersist env st ds pd (some oid) sid scode a [Effect.airOffersSelectAll] := by
  unfold partnerOfferModalPath
  simp [hparse, hpos.not_le, hlow]

lemma partnerOfferModalPath_some_low (env : Env) (st : Store) (ds : DiscordState)
    (pd : ParsedDeal) (oid : Str) (sid scode raw : Str) (a m : ℚ)
    (hparse : parseFloatQ (jsOr (jsReplaceFirst (jsTrim raw) [','] ['.']) (strLit "0")) = some a)
    (hpos : 0 < a)
    (hlow : getCurrentLowestPartnerOffer st.partnerOffers oid = some m) :
    partnerOfferModalPath env st ds pd (some oid) sid scode raw =
      (if a ≤ m - MIN_UNDERCUT_STEP + UNDERCUT_EPS then
        offerPersist env st ds pd (some oid) sid scode a [Effect.airOffersSelectAll]
      else
        { store := st, discord := ds, effects := [Effect.airOffersSelectAll],
          reply := some (Reply.offerTooHigh m (m - MIN_UNDERCUT_STEP)) }) := by
  unfold partnerOfferModalPath
  by_cases hb : a ≤ m - MIN_UNDERCUT_STEP + UNDERCUT_EPS <;>
    simp [hparse, hpos.not_le, hlow, hb]


lemma handleModalSubmit_claim_dispatch (env : Env) (st : Store) (ds : DiscordState)
    (inp : ModalInput) (mid : Str) (ch : DiscordChannel) (msg : DiscordMsg) (descr : Str)
    (sid : Str)
    (hin : env.dealsChannelIds.any (fun c => c == inp.channelId) = true)
    (hpx : jsStartsWith inp.customId (strLit "partner_") = true)
    (hsplit : jsSplit inp.customId [':'] = [strLit "partner_claim_modal", mid])
    (hch : ds.channels.find? (fun c => c.id == inp.channelId) = some ch)
    (hmsg : ch.messages.find? (fun m => m.id == mid) = some msg)
    (hdescr : msg.description = some descr)
    (hne : descr.isEmpty = false)
    (hdig : isDigitsOnly (jsTrim inp.sellerIdInput) = true)
    (hsid : findSellerRecordIdByCode st.sellers (strLit "SE-" ++ jsTrim inp.sellerIdInput)
      = some sid) :
    handleModalSubmit env st ds inp =
      { partnerClaimModalPath env st ds inp.channelId mid (parseDescription descr)
          (jsOr (parseDescription descr).orderId mid)
          (findOrderRecordIdByMessageId st.orders mid) sid
          (strLit "SE-" ++ jsTrim inp.sellerIdInput) with
        effects := [Effect.discordFetchMsg inp.channelId mid, Effect.airOrdersSearch mid,
            Effect.airSellersSearch (strLit "SE-" ++ jsTrim inp.sellerIdInput)] ++
          (partnerClaimModalPath env st ds inp.channelId mid (parseDescription descr)
            (jsOr (parseDescription descr).orderId mid)
            (findOrderRecordIdByMessageId st.orders mid) sid
            (strLit "SE-" ++ jsTrim inp.sellerIdInput)).effects } := by
  unfold handleModalSubmit
  rw [hin, hpx, hsplit, hch]
  simp only [List.headD, List.getD, List.get?, Option.getD]
  simp [hmsg, hdescr, hne, hdig, hsid]

lemma handleModalSubmit_offer_dispatch (env : Env) (st : Store) (ds : DiscordState)
    (inp : ModalInput) (mid : Str) (ch : DiscordChannel) (msg : DiscordMsg) (descr : Str)
    (sid : Str)
    (hin : env.dealsChannelIds.any (fun c => c == inp.channelId) = true)
    (hpx : jsStartsWith inp.customId (strLit "partner_") = true)
    (hsplit : jsSplit inp.customId [':'] = [strLit "partner_offer_modal", mid])
    (hch : ds.channels.find? (fun c => c.id == inp.channelId) = some ch)
    (hmsg : ch.messages.find? (fun m => m.id == mid) = some msg)
    (hdescr : msg.description = some descr)
    (hne : descr.isEmpty = false)
    (hdig : isDigitsOnly (jsTrim inp.sellerIdInput) = true)
    (hsid : findSellerRecordIdByCode st.sellers (strLit "SE-" ++ jsTrim inp.sellerIdInput)
      = some sid) :
    handleModalSubmit env st ds inp =
      { partnerOfferModalPath env st ds (parseDescription descr)
          (findOrderRecordIdByMessageId st.orders mid) sid
          (strLit "SE-" ++ jsTrim inp.sellerIdInput) inp.offerPriceInput with
        effects := [Effect.discordFetchMsg inp.channelId mid, Effect.airOrdersSearch mid,
            Effect.airSellersSearch (strLit "SE-" ++ jsTrim inp.sellerIdInput)] ++
          (partnerOfferModalPath env st ds (parseDescription descr)
            (findOrderRecordIdByMessageId st.orders mid) sid
            (strLit "SE-" ++ jsTrim inp.sellerIdInput) inp.offerPriceInput).effects } := by
  have hpc : (strLit "partner_offer_modal" == strLit "partner_claim_modal") = false := by
    decide
  unfold handleModalSubmit
  rw [hin, hpx, hsplit, hch]
  simp only [List.headD, List.getD, List.get?, Option.getD]
  simp [hmsg, hdescr, hne, hdig, hsid, hpc]

/-! The settled claims.  Each claim theorem carries the claim id in its doc
comment; closed counterexamples and witnesses follow further below. -/

/-- Claim C4 (amended): a modal submission whose trimmed seller-code input
fails the digits-only test is rejected with the digits-only message, nothing
is persisted, and no seller lookup happens — but the order-resolution query
against the store (by message id) has already run before the validation, so
the submission is not entirely store-call free. -/
theorem digits_only_rejection_before_seller_lookup (env : Env) (st : Store)
    (ds : DiscordState) (inp : ModalInput) (pfx mid : Str) (ch : DiscordChannel)
    (msg : DiscordMsg) (descr : Str)
    (hin : env.dealsChannelIds.any (fun c => c == inp.channelId) = true)
    (hpx : jsStartsWith inp.customId (strLit "partner_") = true)
    (hsplit : jsSplit inp.customId [':'] = [pfx, mid])
    (hch : ds.channels.find? (fun c => c.id == inp.channelId) = some ch)
    (hmsg : ch.messages.find? (fun m => m.id == mid) = some msg)
    (hdescr : msg.description = some descr)
    (hne : descr.isEmpty = false)
    (hdig : isDigitsOnly (jsTrim inp.sellerIdInput) = false) :
    handleModalSubmit env st ds inp =
      { store := st, discord := ds,
        effects := [Effect.discordFetchMsg inp.channelId mid, Effect.airOrdersSearch mid],
        reply := some Reply.digitsOnly } := by
  unfold handleModalSubmit
  rw [hin, hpx, hsplit, hch]
  simp only [List.headD, List.getD, List.get?, Option.getD]
  simp [hmsg, hdescr, hne, hdig]

/-- Claim C5: once the claim path runs, the persisted inventory record is in
the final store and the user gets the success reply, for every failure
configuration of the best-effort follow-up calls (seller webhook, fan-out,
flag update, automation webhook) — the environment `env`, including all its
failure flags, is universally quantified. -/
theorem claim_persistence_never_rolled_back (env : Env) (st : Store) (ds : DiscordState)
    (inp : ModalInput) (mid : Str) (ch : DiscordChannel) (msg : DiscordMsg) (descr : Str)
    (sid : Str) (pd : ParsedDeal) (scode : Str)
    (hin : env.dealsChannelIds.any (fun c => c == inp.channelId) = true)
    (hpx : jsStartsWith inp.customId (strLit "partner_") = true)
    (hsplit : jsSplit inp.customId [':'] = [strLit "partner_claim_modal", mid])
    (hch : ds.channels.find? (fun c => c.id == inp.channelId) = some ch)
    (hmsg : ch.messages.find? (fun m => m.id == mid) = some msg)
    (hdescr : msg.description = some descr)
    (hne : descr.isEmpty = false)
    (hdig : isDigitsOnly (jsTrim inp.sellerIdInput) = true)
    (hsid : findSellerRecordIdByCode st.sellers (strLit "SE-" ++ jsTrim inp.sellerIdInput)
      = some sid)
    (hpd : parseDescription descr = pd)
    (hscode : strLit "SE-" ++ jsTrim inp.sellerIdInput = scode) :
    (handleModalSubmit env st ds inp).store.inventory
      = st.inventory ++ [mkInventoryFields env.today pd.productName pd.sku pd.size pd.brand
          pd.startPayout (jsOr pd.orderId mid) sid (findOrderRecordIdByMessageId st.orders mid)]
    ∧ (handleModalSubmit env st ds inp).reply
      = some (Reply.claimSuccess pd.productName pd.size scode) := by
  rw [handleModalSubmit_claim_dispatch env st ds inp mid ch msg descr sid
    hin hpx hsplit hch hmsg hdescr hne hdig hsid]
  subst hpd hscode
  exact partnerClaimModalPath_core env st ds inp.channelId mid _ _ _ sid _

/-- Claim C9: a UI claim whose triggering message resolves to no order record
still succeeds — the inventory record is created with the seller link and no
order link, only the triggering message is edited, no flag update and no
automation webhook happen, and the user gets the normal success reply. -/
theorem claim_without_order_still_succeeds (env : Env) (st : Store) (ds : DiscordState)
    (inp : ModalInput) (mid : Str) (ch : DiscordChannel) (msg : DiscordMsg) (descr : Str)
    (sid : Str) (pd : ParsedDeal) (scode : Str)
    (hin : env.dealsChannelIds.any (fun c => c == inp.channelId) = true)
    (hpx : jsStartsWith inp.customId (strLit "partner_") = true)
    (hsplit : jsSplit inp.customId [':'] = [strLit "partner_claim_modal", mid])
    (hch : ds.channels.find? (fun c => c.id == inp.channelId) = some ch)
    (hmsg : ch.messages.find? (fun m => m.id == mid) = some msg)
    (hdescr : msg.description = some descr)
    (hne : descr.isEmpty = false)
    (hdig : isDigitsOnly (jsTrim inp.sellerIdInput) = true)
    (hsid : findSellerRecordIdByCode st.sellers (strLit "SE-" ++ jsTrim inp.sellerIdInput)
      = some sid)
    (hpd : parseDescription descr = pd)
    (hscode : strLit "SE-" ++ jsTrim inp.sellerIdInput = scode)
    (horder : findOrderRecordIdByMessageId st.orders mid = none)
    (hedit : env.discordEditFails = false) :
    handleModalSubmit env st ds inp =
      { store := { st with inventory := st.inventory ++ [mkInventoryFields env.today
            pd.productName pd.sku pd.size pd.brand pd.startPayout (jsOr pd.orderId mid)
            sid none] },
        discord := replaceChannelEdit ds inp.channelId mid,
        effects := [Effect.discordFetchMsg inp.channelId mid, Effect.airOrdersSearch mid,
            Effect.airSellersSearch scode, Effect.airInventoryCreate,
            Effect.airSellerFind sid] ++
          sellerWebhookEffects (getSellerWebhookUrlByRecordId st.sellers sid) ++
            [Effect.discordEditMsg inp.channelId mid],
        reply := some (Reply.claimSuccess pd.productName pd.size scode) }
    ∧ (∀ x, Effect.webhookMake x ∉ (handleModalSubmit env st ds inp).effects)
    ∧ (∀ x b, Effect.airOrdersUpdate x b ∉ (handleModalSubmit env st ds inp).effects)
    ∧ (∀ c m, Effect.discordEditMsg c m ∈ (handleModalSubmit env st ds inp).effects →
        c = inp.channelId ∧ m = mid) := by
  rw [handleModalSubmit_claim_dispatch env st ds inp mid ch msg descr sid
    hin hpx hsplit hch hmsg hdescr hne hdig hsid]
  subst hpd hscode
  rw [horder, partnerClaimModalPath_noorder env st ds inp.channelId mid _ _ sid _ hedit]
  refine ⟨by simp, ?_, ?_, ?_⟩ <;>
    rcases hu : getSellerWebhookUrlByRecordId st.sellers sid with _ | u <;>
      simp [hu, sellerWebhookEffects]

/-- Claim C10: an offer submission whose triggering message resolves to no
order record skips the undercut arbitration entirely — every positive parsed
amount is persisted (with no order link) and acknowledged, and the offers
table is never scanned, regardless of what offers exist in the store. -/
theorem offer_without_order_skips_arbitration (env : Env) (st : Store) (ds : DiscordState)
    (inp : ModalInput) (mid : Str) (ch : DiscordChannel) (msg : DiscordMsg) (descr : Str)
    (sid : Str) (pd : ParsedDeal) (scode : Str) (a : ℚ)
    (hin : env.dealsChannelIds.any (fun c => c == inp.channelId) = true)
    (hpx : jsStartsWith inp.customId (strLit "partner_") = true)
    (hsplit : jsSplit inp.customId [':'] = [strLit "partner_offer_modal", mid])
    (hch : ds.channels.find? (fun c => c.id == inp.channelId) = some ch)
    (hmsg : ch.messages.find? (fun m => m.id == mid) = some msg)
    (hdescr : msg.description = some descr)
    (hne : descr.isEmpty = false)
    (hdig : isDigitsOnly (jsTrim inp.sellerIdInput) = true)
    (hsid : findSellerRecordIdByCode st.sellers (strLit "SE-" ++ jsTrim inp.sellerIdInput)
      = some sid)
    (hpd : parseDescription descr = pd)
    (hscode : strLit "SE-" ++ jsTrim inp.sellerIdInput = scode)
    (horder : findOrderRecordIdByMessageId st.orders mid = none)
    (hparse : parseFloatQ (jsOr (jsReplaceFirst (jsTrim inp.offerPriceInput) [','] ['.'])
      (strLit "0")) = some a)
    (hpos : 0 < a) :
    handleModalSubmit env st ds inp =
      { store := { st with partnerOffers := st.partnerOffers ++
            [{ partnerOffer := FieldVal.num a, offerDate := env.today, sellerId := [sid],
               linkedOrders := none }] },
        discord := ds,
        effects := [Effect.discordFetchMsg inp.channelId mid, Effect.airOrdersSearch mid,
          Effect.airSellersSearch scode, Effect.airOffersCreate],
        reply := some (Reply.offerSuccess pd.productName pd.size scode a) }
    ∧ Effect.airOffersSelectAll ∉ (handleModalSubmit env st ds inp).effects := by
  rw [handleModalSubmit_offer_dispatch env st ds inp mid ch msg descr sid
    hin hpx hsplit hch hmsg hdescr hne hdig hsid]
  subst hpd hscode
  rw [horder, partnerOfferModalPath_none_accepts env st ds _ sid _ inp.offerPriceInput a
    hparse hpos]
  refine ⟨by simp [offerPersist], ?_⟩
  simp [offerPersist]

/-- Claim C1: offer arbitration on a resolved order.  When no existing offer
for the order has a parseable amount, any positive parsed amount is accepted
and persisted; when a minimum amount m exists, a positive candidate a is
accepted exactly when a ≤ m − MIN_UNDERCUT_STEP + UNDERCUT_EPS (so the exact
boundary m − 2.50 passes and m − 2.00 fails), acceptance persists the offer,
and rejection leaves the store unchanged, reporting m and m − 2.50. -/
theorem offer_arbitration_rule (env : Env) (st : Store) (ds : DiscordState)
    (inp : ModalInput) (mid : Str) (ch : DiscordChannel) (msg : DiscordMsg) (descr : Str)
    (sid : Str) (pd : ParsedDeal) (scode : Str) (oid : Str) (a : ℚ)
    (hin : env.dealsChannelIds.any (fun c => c == inp.channelId) = true)
    (hpx : jsStartsWith inp.customId (strLit "partner_") = true)
    (hsplit : jsSplit inp.customId [':'] = [strLit "partner_offer_modal", mid])
    (hch : ds.channels.find? (fun c => c.id == inp.channelId) = some ch)
    (hmsg : ch.messages.find? (fun m => m.id == mid) = some msg)
    (hdescr : msg.description = some descr)
    (hne : descr.isEmpty = false)
    (hdig : isDigitsOnly (jsTrim inp.sellerIdInput) = true)
    (hsid : findSellerRecordIdByCode st.sellers (strLit "SE-" ++ jsTrim inp.sellerIdInput)
      = some sid)
    (hpd : parseDescription descr = pd)
    (hscode : strLit "SE-" ++ jsTrim inp.sellerIdInput = scode)
    (horder : findOrderRecordIdByMessageId st.orders mid = some oid)
    (hparse : parseFloatQ (jsOr (jsReplaceFirst (jsTrim inp.offerPriceInput) [','] ['.'])
      (strLit "0")) = some a)
    (hpos : 0 < a) :
    (getCurrentLowestPartnerOffer st.partnerOffers oid = none →
      (handleModalSubmit env st ds inp).store.partnerOffers = st.partnerOffers ++
        [{ partnerOffer := FieldVal.num a, offerDate := env.today, sellerId := [sid],
           linkedOrders := some [LinkVal.strId oid] }]
      ∧ (handleModalSubmit env st ds inp).reply
        = some (Reply.offerSuccess pd.productName pd.size scode a))
    ∧ (∀ m : ℚ, getCurrentLowestPartnerOffer st.partnerOffers oid = some m →
        (((handleModalSubmit env st ds inp).reply
            = some (Reply.offerSuccess pd.productName pd.size scode a))
          ↔ a ≤ m - MIN_UNDERCUT_STEP + UNDERCUT_EPS))
    ∧ (∀ m : ℚ, getCurrentLowestPartnerOffer st.partnerOffers oid = some m →
        a ≤ m - MIN_UNDERCUT_STEP + UNDERCUT_EPS →
        (handleModalSubmit env st ds inp).store.partnerOffers = st.partnerOffers ++
          [{ partnerOffer := FieldVal.num a, offerDate := env.today, sellerId := [sid],
             linkedOrders := some [LinkVal.strId oid] }])
    ∧ (∀ m : ℚ, getCurrentLowestPartnerOffer st.partnerOffers oid = some m →
        ¬ (a ≤ m - MIN_UNDERCUT_STEP + UNDERCUT_EPS) →
        (handleModalSubmit env st ds inp).store = st
        ∧ (handleModalSubmit env st ds inp).reply
          = some (Reply.offerTooHigh m (m - MIN_UNDERCUT_STEP))) := by
  rw [handleModalSubmit_offer_dispatch env st ds inp mid ch msg descr sid
    hin hpx hsplit hch hmsg hdescr hne hdig hsid]
  subst hpd hscode
  rw [horder]
  refine ⟨?_, ?_, ?_, ?_⟩
  · intro hlow
    rw [partnerOfferModalPath_some_nolow env st ds _ oid sid _ inp.offerPriceInput a
      hparse hpos hlow]
    exact ⟨by simp [offerPersist], by simp [offerPersist]⟩
  · intro m hlow
    rw [partnerOfferModalPath_some_low env st ds _ oid sid _ inp.offerPriceInput a m
      hparse hpos hlow]
    by_cases hb : a ≤ m - MIN_UNDERCUT_STEP + UNDERCUT_EPS <;> simp [hb, offerPersist]
  · intro m hlow hb
    rw [partnerOfferModalPath_some_low env st ds _ oid sid _ inp.offerPriceInput a m
      hparse hpos hlow]
    simp [hb, offerPersist]
  · intro m hlow hb
    rw [partnerOfferModalPath_some_low env st ds _ oid sid _ inp.offerPriceInput a m
      hparse hpos hlow]
    simp [hb, offerPersist]

/-- Claim C6: a rejected offer submission persists nothing.  Validation
failure (unparseable or non-positive amount) answers the invalid-amount
message with the store untouched; an arbitration rejection answers with both
the current minimum m and the computed maximum allowed m − MIN_UNDERCUT_STEP,
again with the store untouched. -/
theorem rejected_offer_persists_nothing (env : Env) (st : Store) (ds : DiscordState)
    (inp : ModalInput) (mid : Str) (ch : DiscordChannel) (msg : DiscordMsg) (descr : Str)
    (sid : Str) (scode : Str)
    (hin : env.dealsChannelIds.any (fun c => c == inp.channelId) = true)
    (hpx : jsStartsWith inp.customId (strLit "partner_") = true)
    (hsplit : jsSplit inp.customId [':'] = [strLit "partner_offer_modal", mid])
    (hch : ds.channels.find? (fun c => c.id == inp.channelId) = some ch)
    (hmsg : ch.messages.find? (fun m => m.id == mid) = some msg)
    (hdescr : msg.description = some descr)
    (hne : descr.isEmpty = false)
    (hdig : isDigitsOnly (jsTrim inp.sellerIdInput) = true)
    (hsid : findSellerRecordIdByCode st.sellers (strLit "SE-" ++ jsTrim inp.sellerIdInput)
      = some sid)
    (hscode : strLit "SE-" ++ jsTrim inp.sellerIdInput = scode) :
    ((parseFloatQ (jsOr (jsReplaceFirst (jsTrim inp.offerPriceInput) [','] ['.'])
        (strLit "0")) = none ∨
      (∃ a, parseFloatQ (jsOr (jsReplaceFirst (jsTrim inp.offerPriceInput) [','] ['.'])
        (strLit "0")) = some a ∧ a ≤ 0)) →
      handleModalSubmit env st ds inp =
        { store := st, discord := ds,
          effects := [Effect.discordFetchMsg inp.channelId mid, Effect.airOrdersSearch mid,
            Effect.airSellersSearch scode],
          reply := some Reply.invalidOfferAmount })
    ∧ (∀ (oid : Str) (a m : ℚ),
        findOrderRecordIdByMessageId st.orders mid = some oid →
        parseFloatQ (jsOr (jsReplaceFirst (jsTrim inp.offerPriceInput) [','] ['.'])
          (strLit "0")) = some a →
        0 < a →
        getCurrentLowestPartnerOffer st.partnerOffers oid = some m →
        ¬ (a ≤ m - MIN_UNDERCUT_STEP + UNDERCUT_EPS) →
        handleModalSubmit env st ds inp =
          { store := st, discord := ds,
            effects := [Effect.discordFetchMsg inp.channelId mid, Effect.airOrdersSearch mid,
              Effect.airSellersSearch scode, Effect.airOffersSelectAll],
            reply := some (Reply.offerTooHigh m (m - MIN_UNDERCUT_STEP)) }) := by
  constructor
  · intro hbad
    rw [handleModalSubmit_offer_dispatch env st ds inp mid ch msg descr sid
      hin hpx hsplit hch hmsg hdescr hne hdig hsid]
    subst hscode
    rw [partnerOfferModalPath_invalid env st ds _ _ sid _ inp.offerPriceInput hbad]
    simp
  · intro oid a m horder hparse hpos hlow hb
    rw [handleModalSubmit_offer_dispatch env st ds inp mid ch msg descr sid
      hin hpx hsplit hch hmsg hdescr hne hdig hsid]
    subst hscode
    rw [horder, partnerOfferModalPath_some_low env st ds _ oid sid _ inp.offerPriceInput a m
      hparse hpos hlow]
    simp [hb]

/-- Claim C2 (amended): the code has no duplicate-claim guard.  Whenever the
seller resolves, the order loads and its payout parses, `/interface-claim`
persists a fresh claim record and answers success — the existing inventory
(in particular any previously persisted claim for the same order) and the
disabled flag are never consulted, so a second claim attempt on the same
order also persists. -/
theorem claim_has_no_duplicate_guard (env : Env) (st : Store) (ds : DiscordState)
    (oid code : Str) (sid : Str) (order : OrderRec) (q : ℚ)
    (hoid : oid.isEmpty = false) (hcode : code.isEmpty = false)
    (hsid : findSellerRecordIdByCode st.sellers code = some sid)
    (horder : st.orders.find? (fun o => o.id == oid) = some order)
    (hq : parseNumericField order.targetOutsourceBuyingPrice = some q) :
    (postInterfaceClaim env st ds (some oid) (some code)).1.inventory
      = st.inventory ++ [mkInventoryFields env.today order.productName order.sku order.size
          order.brand (some q) (jsOr order.orderId oid) sid (some oid)]
    ∧ (postInterfaceClaim env st ds (some oid) (some code)).2.2.2
      = ClaimResp.claimed order.productName order.size code := by
  unfold postInterfaceClaim
  simp only [hoid, hcode, Bool.or_self, Bool.false_eq_true, if_false, hsid, horder, hq]
  refine ⟨(claimDisableStage_store env _ ds oid).1, ?_⟩
  trivial

/-- Claim C8 (amended): `POST /partner-deal/disable` answers 400 on a missing
record id, but a record id absent from the orders store yields the generic
500 internal error — the endpoint has no not-found response. -/
theorem disable_error_contract (env : Env) (st : Store) (ds : DiscordState) (rid : Str)
    (hne : rid.isEmpty = false)
    (hmiss : st.orders.find? (fun o => o.id == rid) = none) :
    postPartnerDealDisable env st ds none = (st, ds, [], DisableResp.missingRecordId)
    ∧ (postPartnerDealDisable env st ds (some rid)).2.2.2 = DisableResp.internalError
    ∧ DisableResp.status (postPartnerDealDisable env st ds (some rid)).2.2.2 = 500 := by
  refine ⟨rfl, ?_, ?_⟩
  · unfold postPartnerDealDisable disableDealMessagesForRecord
    simp [hne, hmiss]
  · unfold postPartnerDealDisable disableDealMessagesForRecord
    simp [hne, hmiss]
    rfl


/-- Claim C4, counterexample: on the concrete digits-invalid submission the
handler both answers the digits-only rejection and has already made a store
call (the orders search by message id), refuting the no-store-call clause. -/
theorem order_lookup_precedes_validation :
    (handleModalSubmit env0 st0 ds0 inpBad).reply = some Reply.digitsOnly
    ∧ Effect.airOrdersSearch (strLit "m1") ∈ (handleModalSubmit env0 st0 ds0 inpBad).effects
    ∧ (Effect.airOrdersSearch (strLit "m1")).isStoreCall = true := by
  refine ⟨?_, ?_, rfl⟩ <;> with_unfolding_all decide

/-- Claim C4, witness for the amended theorem at the concrete fixtures. -/
theorem digits_only_rejection_before_seller_lookup_check :
    handleModalSubmit env0 st0 ds0 inpBad =
      { store := st0, discord := ds0,
        effects := [Effect.discordFetchMsg (strLit "ch1") (strLit "m1"),
          Effect.airOrdersSearch (strLit "m1")],
        reply := some Reply.digitsOnly } :=
  digits_only_rejection_before_seller_lookup env0 st0 ds0 inpBad
    (strLit "partner_claim_modal") (strLit "m1") ch0 msg0 descr0
    (by decide) (by decide) (by decide) (by decide) (by decide) rfl (by decide) (by decide)

/-- Claim C5, witness: with every best-effort follow-up call failing
(`envFail`), the claim record is still persisted and the success reply sent. -/
theorem claim_persistence_never_rolled_back_check :
    (handleModalSubmit envFail st0 ds0 inpClaim).store.inventory
      = st0.inventory ++ [mkInventoryFields envFail.today pd0.productName pd0.sku pd0.size
          pd0.brand pd0.startPayout (jsOr pd0.orderId (strLit "m1")) (strLit "selRec1")
          (findOrderRecordIdByMessageId st0.orders (strLit "m1"))]
    ∧ (handleModalSubmit envFail st0 ds0 inpClaim).reply
      = some (Reply.claimSuccess pd0.productName pd0.size (strLit "SE-00007")) :=
  claim_persistence_never_rolled_back envFail st0 ds0 inpClaim (strLit "m1") ch0 msg0 descr0
    (strLit "selRec1") pd0 (strLit "SE-00007")
    (by decide) (by decide) (by decide) (by decide) (by decide) rfl (by decide) (by decide)
    (by decide) (by with_unfolding_all decide) (by decide)


/-- Claim C9, witness at the concrete fixtures (order not resolvable from
the triggering message). -/
theorem claim_without_order_still_succeeds_check :
    handleModalSubmit env0 st9 ds0 inpClaim =
      { store := { st9 with inventory := st9.inventory ++ [mkInventoryFields env0.today
            pd0.productName pd0.sku pd0.size pd0.brand pd0.startPayout
            (jsOr pd0.orderId (strLit "m1")) (strLit "selRec1") none] },
        discord := replaceChannelEdit ds0 (strLit "ch1") (strLit "m1"),
        effects := [Effect.discordFetchMsg (strLit "ch1") (strLit "m1"),
            Effect.airOrdersSearch (strLit "m1"), Effect.airSellersSearch (strLit "SE-00007"),
            Effect.airInventoryCreate, Effect.airSellerFind (strLit "selRec1")] ++
          sellerWebhookEffects (getSellerWebhookUrlByRecordId st9.sellers (strLit "selRec1")) ++
            [Effect.discordEditMsg (strLit "ch1") (strLit "m1")],
        reply := some (Reply.claimSuccess pd0.productName pd0.size (strLit "SE-00007")) }
    ∧ (∀ x, Effect.webhookMake x ∉ (handleModalSubmit env0 st9 ds0 inpClaim).effects)
    ∧ (∀ x b, Effect.airOrdersUpdate x b ∉ (handleModalSubmit env0 st9 ds0 inpClaim).effects)
    ∧ (∀ c m, Effect.discordEditMsg c m ∈ (handleModalSubmit env0 st9 ds0 inpClaim).effects →
        c = strLit "ch1" ∧ m = strLit "m1") :=
  claim_without_order_still_succeeds env0 st9 ds0 inpClaim (strLit "m1") ch0 msg0 descr0
    (strLit "selRec1") pd0 (strLit "SE-00007")
    (by decide) (by decide) (by decide) (by decide) (by decide) rfl (by decide) (by decide)
    (by decide) (by with_unfolding_all decide) (by decide) (by decide) rfl

/-- Claim C10, witness: with an existing lower offer of 100 in the store, an
offer of 98 on an unresolvable order is still accepted and persisted, and the
offers table is never scanned. -/
theorem offer_without_order_skips_arbitration_check :
    handleModalSubmit env0 st10 ds0 inpOffer980 =
      { store := { st10 with partnerOffers := st10.partnerOffers ++
            [{ partnerOffer := FieldVal.num (98 : ℚ), offerDate := env0.today,
               sellerId := [strLit "selRec1"], linkedOrders := none }] },
        discord := ds0,
        effects := [Effect.discordFetchMsg (strLit "ch1") (strLit "m1"),
          Effect.airOrdersSearch (strLit "m1"), Effect.airSellersSearch (strLit "SE-00007"),
          Effect.airOffersCreate],
        reply := some (Reply.offerSuccess pd0.productName pd0.size (strLit "SE-00007") (98 : ℚ)) }
    ∧ Effect.airOffersSelectAll ∉ (handleModalSubmit env0 st10 ds0 inpOffer980).effects :=
  offer_without_order_skips_arbitration env0 st10 ds0 inpOffer980 (strLit "m1") ch0 msg0 descr0
    (strLit "selRec1") pd0 (strLit "SE-00007") (98 : ℚ)
    (by decide) (by decide) (by decide) (by decide) (by decide) rfl (by decide) (by decide)
    (by decide) (by with_unfolding_all decide) (by decide) (by decide)
    (by with_unfolding_all decide) (by with_unfolding_all decide)

/-- Claim C1, witness: with one existing offer of 100 and step 2.50, the
boundary offer 97.50 is accepted and 98.00 is rejected. -/
theorem offer_arbitration_rule_check :
    (handleModalSubmit env0 stOffers ds0 inpOffer975).reply
      = some (Reply.offerSuccess pd0.productName pd0.size (strLit "SE-00007") (97.5 : ℚ))
    ∧ ¬ ((handleModalSubmit env0 stOffers ds0 inpOffer980).reply
      = some (Reply.offerSuccess pd0.productName pd0.size (strLit "SE-00007") (98 : ℚ))) := by
  constructor
  · exact ((offer_arbitration_rule env0 stOffers ds0 inpOffer975 (strLit "m1") ch0 msg0 descr0
      (strLit "selRec1") pd0 (strLit "SE-00007") (strLit "rec1") (97.5 : ℚ)
      (by decide) (by decide) (by decide) (by decide) (by decide) rfl (by decide) (by decide)
      (by decide) (by with_unfolding_all decide) (by decide) (by with_unfolding_all decide)
      (by with_unfolding_all decide) (by with_unfolding_all decide)).2.1 100
      (by with_unfolding_all decide)).mpr (by with_unfolding_all decide)
  · intro h
    exact absurd (((offer_arbitration_rule env0 stOffers ds0 inpOffer980 (strLit "m1") ch0 msg0
      descr0 (strLit "selRec1") pd0 (strLit "SE-00007") (strLit "rec1") (98 : ℚ)
      (by decide) (by decide) (by decide) (by decide) (by decide) rfl (by decide) (by decide)
      (by decide) (by with_unfolding_all decide) (by decide) (by with_unfolding_all decide)
      (by with_unfolding_all decide) (by with_unfolding_all decide)).2.1 100
      (by with_unfolding_all decide)).mp h) (by with_unfolding_all decide)

/-- Claim C6, witness: the rejected 98.00 offer leaves the store unchanged
and the rejection names the floor 100 and the ceiling 100 − 2.50. -/
theorem rejected_offer_persists_nothing_check :
    handleModalSubmit env0 stOffers ds0 inpOffer980 =
      { store := stOffers, discord := ds0,
        effects := [Effect.discordFetchMsg (strLit "ch1") (strLit "m1"),
          Effect.airOrdersSearch (strLit "m1"), Effect.airSellersSearch (strLit "SE-00007"),
          Effect.airOffersSelectAll],
        reply := some (Reply.offerTooHigh (100 : ℚ) ((100 : ℚ) - MIN_UNDERCUT_STEP)) } :=
  (rejected_offer_persists_nothing env0 stOffers ds0 inpOffer980 (strLit "m1") ch0 msg0 descr0
    (strLit "selRec1") (strLit "SE-00007")
    (by decide) (by decide) (by decide) (by decide) (by decide) rfl (by decide) (by decide)
    (by decide) (by decide)).2 (strLit "rec1") (98 : ℚ) (100 : ℚ)
    (by with_unfolding_all decide) (by with_unfolding_all decide)
    (by with_unfolding_all decide) (by with_unfolding_all decide)
    (by with_unfolding_all decide)


/-- Claim C2, counterexample: two back-to-back `/interface-claim` calls on
the same order both succeed and leave two claim records linked to it. -/
theorem two_claims_persist_for_one_order :
    ((icRun2.1.inventory.filter
        (fun r => r.unfulfilledOrdersLog == some [strLit "rec1"])).length = 2)
    ∧ icRun1.2.2.2 = ClaimResp.claimed (strLit "Shoe A") (strLit "42") (strLit "SE-00007")
    ∧ icRun2.2.2.2 = ClaimResp.claimed (strLit "Shoe A") (strLit "42") (strLit "SE-00007") := by
  refine ⟨?_, ?_, ?_⟩ <;> with_unfolding_all decide

/-- Claim C2, witness for the amended theorem: a claim on a store already
holding a claim record for the same order persists a second one. -/
theorem claim_has_no_duplicate_guard_check :
    (postInterfaceClaim env0 stDup dsD (some (strLit "rec1")) (some (strLit "SE-00007"))).1.inventory
      = stDup.inventory ++ [mkInventoryFields env0.today order0.productName order0.sku
          order0.size order0.brand (some (100 : ℚ)) (jsOr order0.orderId (strLit "rec1"))
          (strLit "selRec1") (some (strLit "rec1"))]
    ∧ (postInterfaceClaim env0 stDup dsD (some (strLit "rec1")) (some (strLit "SE-00007"))).2.2.2
      = ClaimResp.claimed order0.productName order0.size (strLit "SE-00007") :=
  claim_has_no_duplicate_guard env0 stDup dsD (strLit "rec1") (strLit "SE-00007")
    (strLit "selRec1") order0 (100 : ℚ)
    (by decide) (by decide) (by decide) (by decide) (by with_unfolding_all decide)

/-- Claim C8, counterexample: a disable request for a record id absent from
the orders store answers the generic 500 internal error, not a not-found. -/
theorem disable_unknown_record_not_notfound :
    (postPartnerDealDisable env0 st0 dsD (some (strLit "recX"))).2.2.2
      = DisableResp.internalError
    ∧ DisableResp.status (postPartnerDealDisable env0 st0 dsD (some (strLit "recX"))).2.2.2
      = 500 := by
  refine ⟨?_, ?_⟩ <;> with_unfolding_all decide

/-- Claim C8, witness for the amended theorem at the concrete fixtures. -/
theorem disable_error_contract_check :
    postPartnerDealDisable env0 st0 dsD none = (st0, dsD, [], DisableResp.missingRecordId)
    ∧ (postPartnerDealDisable env0 st0 dsD (some (strLit "recX"))).2.2.2
      = DisableResp.internalError
    ∧ DisableResp.status (postPartnerDealDisable env0 st0 dsD (some (strLit "recX"))).2.2.2
      = 500 :=
  disable_error_contract env0 st0 dsD (strLit "recX") (by decide) (by decide)


/-! ### C3: codec round-trip -/

lemma jsStartsWith_append (l x : Str) : jsStartsWith (l ++ x) l = true := by
  induction l with
  | nil => cases x <;> rfl
  | cons c cs ih => simp [jsStartsWith, ih]

lemma jsStartsWith_of_mismatch (l pre x : Str) (h : mismatchWithin l pre = true) :
    jsStartsWith (l ++ x) pre = false := by
  induction l generalizing pre with
  | nil => simp [mismatchWithin] at h
  | cons c cs ih =>
    cases pre with
    | nil => simp [mismatchWithin] at h
    | cons p ps =>
      simp only [mismatchWithin, Bool.or_eq_true] at h
      rcases h with h | h
      · simp [jsStartsWith, List.cons_append]
        intro he
        simp [he] at h
      · simp [jsStartsWith, List.cons_append, ih ps h]

lemma splitFirst_eq_none (s sep : Str) (h : containsSub s sep = false) :
    splitFirst s sep = none := by
  induction s with
  | nil => rfl
  | cons c rest ih =>
    simp only [containsSub, Bool.or_eq_false_iff] at h
    simp [splitFirst, h.1, ih h.2]

lemma jsSplitAux_no_occ (fuel : Nat) (s sep : Str) (h : containsSub s sep = false) :
    jsSplitAux fuel s sep = [s] := by
  cases fuel with
  | zero => rfl
  | succ f => simp [jsSplitAux, splitFirst_eq_none s sep h]

lemma splitFirst_self_append (sep t : Str) (hsep : sep ≠ []) :
    splitFirst (sep ++ t) sep = some ([], t) := by
  cases sep with
  | nil => exact absurd rfl hsep
  | cons p ps =>
    have h1 : jsStartsWith (p :: (ps ++ t)) (p :: ps) = true := by
      have h2 := jsStartsWith_append (p :: ps) t
      simpa using h2
    simp only [List.cons_append, splitFirst, List.append_eq]
    rw [if_pos h1]
    simp only [List.length_cons, List.drop_succ_cons, Option.some.injEq]
    simp [List.drop_left]

lemma jsTrim_cons_ws (c : Char) (v : Str) (hc : c.isWhitespace = true) :
    jsTrim (c :: v) = jsTrim v := by
  simp [jsTrim, List.dropWhile, hc]

lemma containsSub_head_false (s : Str) (c : Char) (cs : Str)
    (h : ∀ a ∈ s, (a == c) = false) : containsSub s (c :: cs) = false := by
  induction s with
  | nil => rfl
  | cons a rest ih =>
    have ha := h a (by simp)
    simp only [containsSub, jsStartsWith, ha, Bool.false_and, Bool.false_or]
    exact ih (fun b hb => h b (by simp [hb]))

lemma containsSub_cons_false (c : Char) (v sub : Str)
    (h1 : jsStartsWith (c :: v) sub = false) (h2 : containsSub v sub = false) :
    containsSub (c :: v) sub = false := by
  simp [containsSub, h1, h2]

lemma getValue_extract (label v : Str) (hlab : label ≠ [])
    (hnc : containsSub (' ' :: v) label = false) (ht : jsTrim v = v) :
    jsTrim ((jsSplit (label ++ ' ' :: v) label).getD 1 []) = v := by
  have hlen : (label ++ ' ' :: v).length + 1 = (label ++ ' ' :: v).length + 1 := rfl
  have e1 : jsSplit (label ++ ' ' :: v) label
      = [] :: jsSplitAux (label ++ ' ' :: v).length (' ' :: v) label := by
    unfold jsSplit
    conv_lhs => rw [show (label ++ ' ' :: v).length + 1 = (label ++ ' ' :: v).length + 1 from rfl]
    simp [jsSplitAux, splitFirst_self_append label (' ' :: v) hlab]
  rw [e1, jsSplitAux_no_occ _ _ _ hnc]
  simp [jsTrim_cons_ws ' ' v (by decide), ht]

lemma splitFirst_around (l t : Str) (c : Char) (h : containsSub l [c] = false) :
    splitFirst (l ++ c :: t) [c] = some (l, t) := by
  induction l with
  | nil =>
    simp only [List.nil_append, splitFirst, jsStartsWith]
    simp
  | cons a l' ih =>
    simp only [containsSub, Bool.or_eq_false_iff, jsStartsWith] at h
    have ha : (a == c) = false := by
      rcases h with ⟨h1, _⟩
      simpa using h1
    simp only [List.cons_append, splitFirst, jsStartsWith, ha, Bool.false_and, if_neg,
      Bool.false_eq_true, not_false_eq_true, List.append_eq, ih h.2]

lemma jsSplitAux_joinWith (c : Char) :
    ∀ (lines : List Str) (fuel : Nat), (∀ l ∈ lines, containsSub l [c] = false) →
      lines ≠ [] → (joinWith c lines).length < fuel →
      jsSplitAux fuel (joinWith c lines) [c] = lines
  | [], _, _, hne, _ => absurd rfl hne
  | [l], fuel, h, _, _ => by
    simpa [joinWith] using jsSplitAux_no_occ fuel l [c] (h l (by simp))
  | l :: l2 :: ls, fuel, h, _, hfuel => by
    have hjoin : joinWith c (l :: l2 :: ls) = l ++ c :: joinWith c (l2 :: ls) := rfl
    rw [hjoin] at hfuel ⊢
    cases fuel with
    | zero => omega
    | succ f =>
      have hl : containsSub l [c] = false := h l (by simp)
      simp only [jsSplitAux, splitFirst_around l (joinWith c (l2 :: ls)) c hl]
      have hrec := jsSplitAux_joinWith c (l2 :: ls) f
        (fun x hx => h x (by simp [hx])) (by simp)
        (by simp at hfuel; omega)
      rw [hrec]

lemma jsSplit_joinWith (c : Char) (lines : List Str)
    (h : ∀ l ∈ lines, containsSub l [c] = false) (hne : lines ≠ []) :
    jsSplit (joinWith c lines) [c] = lines :=
  jsSplitAux_joinWith c lines ((joinWith c lines).length + 1) h hne (by omega)

lemma digitsVal_go (acc : Nat) (ds : Str) :
    ds.foldl (fun a c => a * 10 + (c.toNat - 48)) acc
      = acc * 10 ^ ds.length + digitsVal ds := by
  induction ds generalizing acc with
  | nil => simp [digitsVal]
  | cons d ds ih =>
    simp only [List.foldl_cons, List.length_cons, digitsVal]
    rw [ih, ih (0 * 10 + (d.toNat - 48))]
    ring

lemma digitsVal_append (xs ys : Str) :
    digitsVal (xs ++ ys) = digitsVal xs * 10 ^ ys.length + digitsVal ys := by
  unfold digitsVal
  rw [List.foldl_append, digitsVal_go]
  rfl

lemma digitChar_toNat (a : Nat) (h : a < 10) : (digitChar a).toNat = 48 + a := by
  interval_cases a <;> decide

lemma digitChar_isDigit (a : Nat) (h : a < 10) : (digitChar a).isDigit = true := by
  interval_cases a <;> decide

lemma digitChar_facts (k : Nat) (h : k < 10) :
    (digitChar k).isDigit = true ∧ (digitChar k).isWhitespace = false ∧
    ((digitChar k) == '€') = false ∧ ((digitChar k) == ',') = false ∧
    ((digitChar k) == '\n') = false ∧ ((digitChar k) == '*') = false ∧
    ((digitChar k) == '-') = false ∧ ((digitChar k) == '+') = false ∧
    ((digitChar k) == '.') = false := by
  interval_cases k <;> decide

lemma natToDecAux_spec : ∀ (fuel n : Nat), n < fuel →
    digitsVal (natToDecAux fuel n) = n
    ∧ (∀ a ∈ natToDecAux fuel n, ∃ k, k < 10 ∧ a = digitChar k)
    ∧ natToDecAux fuel n ≠ []
  | 0, n, h => absurd h (by omega)
  | fuel + 1, n, h => by
    by_cases h10 : n < 10
    · refine ⟨?_, ?_, ?_⟩
      · simp [natToDecAux, h10, digitsVal, digitChar_toNat n h10]
      · intro a ha
        simp only [natToDecAux, h10, if_true, List.mem_singleton] at ha
        exact ⟨n, h10, ha⟩
      · simp [natToDecAux, h10]
    · have hdiv : n / 10 < fuel := by
        have h2 : n / 10 < n := Nat.div_lt_self (by omega) (by omega)
        omega
      obtain ⟨ih1, ih2, ih3⟩ := natToDecAux_spec fuel (n / 10) hdiv
      have hmod : n % 10 < 10 := Nat.mod_lt _ (by omega)
      refine ⟨?_, ?_, ?_⟩
      · simp only [natToDecAux, h10, if_false]
        rw [digitsVal_append, ih1]
        simp [digitsVal, digitChar_toNat _ hmod]
        omega
      · intro a ha
        simp only [natToDecAux, h10, if_false, List.mem_append, List.mem_singleton] at ha
        rcases ha with ha | ha
        · exact ih2 a ha
        · exact ⟨n % 10, hmod, ha⟩
      · simp [natToDecAux, h10, ih3]

lemma natToDec_val (n : Nat) : digitsVal (natToDec n) = n :=
  (natToDecAux_spec (n + 1) n (by omega)).1

lemma natToDec_mem (n : Nat) : ∀ a ∈ natToDec n, ∃ k, k < 10 ∧ a = digitChar k :=
  (natToDecAux_spec (n + 1) n (by omega)).2.1

lemma natToDec_digits (n : Nat) : ∀ a ∈ natToDec n, a.isDigit = true := by
  intro a ha
  obtain ⟨k, hk, rfl⟩ := natToDec_mem n a ha
  exact digitChar_isDigit k hk

lemma natToDec_ne_nil (n : Nat) : natToDec n ≠ [] :=
  (natToDecAux_spec (n + 1) n (by omega)).2.2

lemma takeWhile_all_append (p : Char → Bool) (xs : Str) (y : Char) (ys : Str)
    (h : ∀ a ∈ xs, p a = true) (hy : p y = false) :
    (xs ++ y :: ys).takeWhile p = xs ∧ (xs ++ y :: ys).dropWhile p = y :: ys := by
  induction xs with
  | nil => simp [List.takeWhile, List.dropWhile, hy]
  | cons a xs ih =>
    have ha := h a (by simp)
    have hr := ih (fun b hb => h b (by simp [hb]))
    simp [List.takeWhile, List.dropWhile, ha, hr.1, hr.2]

lemma parseSign_other (c : Char) (t : Str) (h1 : (c == '-') = false)
    (h2 : (c == '+') = false) : parseSign (c :: t) = (1, c :: t) := by
  unfold parseSign
  split
  · next heq =>
    have hce : c = '-' := (List.cons.injEq .. ▸ heq).1
    rw [hce] at h1
    simp at h1
  · next heq =>
    have hce : c = '+' := (List.cons.injEq .. ▸ heq).1
    rw [hce] at h2
    simp at h2
  · rfl

lemma digitsVal_pair (a b : Nat) (ha : a < 10) (hb : b < 10) :
    digitsVal [digitChar a, digitChar b] = a * 10 + b := by
  simp [digitsVal, digitChar_toNat a ha, digitChar_toNat b hb]

lemma parseFloatQ_digits_body (c : Char) (cs : Str) (r : Nat) (hr : r < 100)
    (hmem : ∀ a ∈ c :: cs, ∃ k, k < 10 ∧ a = digitChar k) :
    parseFloatQ ((c :: cs) ++ '.' :: digitChar (r / 10) :: [digitChar (r % 10)])
      = some (((digitsVal (c :: cs) * 100 + r : ℕ) : ℚ) / 100)
    ∧ parseFloatQ ('-' :: ((c :: cs) ++ '.' :: digitChar (r / 10) :: [digitChar (r % 10)]))
      = some (-(((digitsVal (c :: cs) * 100 + r : ℕ) : ℚ) / 100)) := by
  have hdig : ∀ a ∈ c :: cs, Char.isDigit a = true := by
    intro a ha
    obtain ⟨k, hk, rfl⟩ := hmem a ha
    exact digitChar_isDigit k hk
  have hsplit := takeWhile_all_append Char.isDigit (c :: cs) '.'
    (digitChar (r / 10) :: [digitChar (r % 10)]) hdig (by decide)
  obtain ⟨kc, hkc, hck⟩ := hmem c (by simp)
  have hf := digitChar_facts kc hkc
  have hws : c.isWhitespace = false := by rw [hck]; exact hf.2.1
  have hm : (c == '-') = false := by rw [hck]; exact hf.2.2.2.2.2.2.1
  have hp : (c == '+') = false := by rw [hck]; exact hf.2.2.2.2.2.2.2.1
  have hd1 : Char.isDigit (digitChar (r / 10)) = true := digitChar_isDigit _ (by omega)
  have hd0 : Char.isDigit (digitChar (r % 10)) = true := digitChar_isDigit _ (by omega)
  have hpair : digitsVal [digitChar (r / 10), digitChar (r % 10)] = r := by
    rw [digitsVal_pair (r / 10) (r % 10) (by omega) (by omega)]
    omega
  simp only [List.cons_append] at hsplit
  constructor
  · simp only [parseFloatQ, List.cons_append]
    rw [show (c :: (cs ++ '.' :: digitChar (r / 10) :: [digitChar (r % 10)])).dropWhile
        Char.isWhitespace = c :: (cs ++ '.' :: digitChar (r / 10) :: [digitChar (r % 10)])
      from by simp [List.dropWhile, hws]]
    rw [parseSign_other c _ hm hp]
    simp only [hsplit.1, hsplit.2]
    simp only [List.takeWhile, List.dropWhile, hd1, hd0]
    rw [if_neg (by simp)]
    simp only [parseExpPart, hpair, natToDec_val]
    rw [show ((1 : Int) : ℚ) = 1 from rfl]
    push_cast
    simp only [List.length_cons, List.length_nil, zpow_zero]
    ring_nf
  · simp only [parseFloatQ, List.cons_append]
    rw [show (('-' :: (c :: (cs ++ '.' :: digitChar (r / 10) :: [digitChar (r % 10)])))
        |>.dropWhile Char.isWhitespace)
        = '-' :: (c :: (cs ++ '.' :: digitChar (r / 10) :: [digitChar (r % 10)]))
      from by simp [List.dropWhile]]
    rw [show parseSign ('-' :: (c :: (cs ++ '.' :: digitChar (r / 10) :: [digitChar (r % 10)])))
      = (-1, c :: (cs ++ '.' :: digitChar (r / 10) :: [digitChar (r % 10)])) from rfl]
    simp only [hsplit.1, hsplit.2]
    simp only [List.takeWhile, List.dropWhile, hd1, hd0]
    rw [if_neg (by simp)]
    simp only [parseExpPart, hpair]
    push_cast
    simp only [List.length_cons, List.length_nil, zpow_zero]
    ring_nf

lemma parseFloatQ_toFixed2 (q : ℚ) :
    parseFloatQ (toFixed2 q) = some ((roundQ (q * 100) : ℚ) / 100) := by
  obtain ⟨c, cs, hcons⟩ : ∃ c cs,
      natToDec ((roundQ (q * 100)).natAbs / 100) = c :: cs := by
    cases h : natToDec ((roundQ (q * 100)).natAbs / 100) with
    | nil => exact absurd h (natToDec_ne_nil _)
    | cons c cs => exact ⟨c, cs, rfl⟩
  have hmem : ∀ a ∈ c :: cs, ∃ k, k < 10 ∧ a = digitChar k := by
    rw [← hcons]
    exact natToDec_mem _
  have hr : (roundQ (q * 100)).natAbs % 100 < 100 := Nat.mod_lt _ (by omega)
  have hbody := parseFloatQ_digits_body c cs ((roundQ (q * 100)).natAbs % 100) hr hmem
  have hdv : digitsVal (c :: cs) = (roundQ (q * 100)).natAbs / 100 := by
    rw [← hcons]
    exact natToDec_val _
  have hm100 : digitsVal (c :: cs) * 100 + (roundQ (q * 100)).natAbs % 100
      = (roundQ (q * 100)).natAbs := by
    rw [hdv]
    omega
  by_cases hneg : roundQ (q * 100) < 0
  · have htf : toFixed2 q = '-' :: ((c :: cs) ++ '.' ::
        digitChar ((roundQ (q * 100)).natAbs % 100 / 10) ::
        [digitChar ((roundQ (q * 100)).natAbs % 100 % 10)]) := by
      simp only [toFixed2]
      rw [if_pos hneg, hcons]
      rfl
    rw [htf, hbody.2, hm100]
    have hcast : (((roundQ (q * 100)).natAbs : ℕ) : ℚ) = -((roundQ (q * 100) : ℤ) : ℚ) := by
      rw [Int.cast_natAbs, abs_of_neg (by exact_mod_cast hneg)]
      push_cast
      ring
    rw [hcast]
    ring_nf
  · have htf : toFixed2 q = (c :: cs) ++ '.' ::
        digitChar ((roundQ (q * 100)).natAbs % 100 / 10) ::
        [digitChar ((roundQ (q * 100)).natAbs % 100 % 10)] := by
      simp only [toFixed2]
      rw [if_neg hneg, hcons]
      rfl
    rw [htf, hbody.1, hm100]
    have hcast : (((roundQ (q * 100)).natAbs : ℕ) : ℚ) = ((roundQ (q * 100) : ℤ) : ℚ) := by
      rw [Int.cast_natAbs, abs_of_nonneg (by exact_mod_cast (by omega : (0 : ℤ) ≤ roundQ (q * 100)))]
    rw [hcast]

lemma toFixed2_mem (q : ℚ) : ∀ a ∈ toFixed2 q,
    a = '-' ∨ a = '.' ∨ ∃ k, k < 10 ∧ a = digitChar k := by
  intro a ha
  simp only [toFixed2] at ha
  rcases List.mem_append.mp ha with h | h
  · rcases List.mem_append.mp h with h2 | h2
    · by_cases hn : roundQ (q * 100) < 0
      · rw [if_pos hn] at h2
        simp only [List.mem_singleton] at h2
        exact Or.inl h2
      · rw [if_neg hn] at h2
        simp at h2
    · exact Or.inr (Or.inr (natToDec_mem _ a h2))
  · simp only [List.mem_cons, List.mem_singleton, List.not_mem_nil, or_false] at h
    rcases h with rfl | rfl | rfl
    · exact Or.inr (Or.inl rfl)
    · exact Or.inr (Or.inr ⟨_, by omega, rfl⟩)
    · exact Or.inr (Or.inr ⟨_, Nat.mod_lt _ (by omega), rfl⟩)

lemma toFixed2_char_facts (q : ℚ) : ∀ a ∈ toFixed2 q,
    a.isWhitespace = false ∧ (a == ',') = false ∧ (a == '\n') = false ∧
    (a == '*') = false ∧ (a == '€') = false := by
  intro a ha
  rcases toFixed2_mem q a ha with rfl | rfl | ⟨k, hk, rfl⟩
  · exact ⟨by decide, by decide, by decide, by decide, by decide⟩
  · exact ⟨by decide, by decide, by decide, by decide, by decide⟩
  · interval_cases k <;> exact ⟨by decide, by decide, by decide, by decide, by decide⟩

lemma toFixed2_ne_nil (q : ℚ) : toFixed2 q ≠ [] := by
  simp only [toFixed2]
  intro h
  have hl := congrArg List.length h
  simp [List.length_append] at hl

lemma toFixed2_isEmpty (q : ℚ) : (toFixed2 q).isEmpty = false := by
  cases he : (toFixed2 q).isEmpty
  · rfl
  · exact absurd (List.isEmpty_iff.mp he) (toFixed2_ne_nil q)

lemma dropWhile_eq_self_of_none (p : Char → Bool) (s : Str)
    (h : ∀ a ∈ s, p a = false) : s.dropWhile p = s := by
  cases s with
  | nil => rfl
  | cons a rest => simp [List.dropWhile, h a (by simp)]

lemma jsTrim_eq_self_of_no_ws (s : Str) (h : ∀ a ∈ s, a.isWhitespace = false) :
    jsTrim s = s := by
  unfold jsTrim
  rw [dropWhile_eq_self_of_none _ s h,
    dropWhile_eq_self_of_none _ s.reverse (fun a ha => h a (List.mem_reverse.mp ha)),
    List.reverse_reverse]

lemma containsSub_single_false (s : Str) (c : Char)
    (h : ∀ a ∈ s, (a == c) = false) : containsSub s [c] = false :=
  containsSub_head_false s c [] h

lemma payout_parse (q : ℚ) :
    parseFloatQ (jsOr (jsReplaceFirst (jsReplaceFirst ('€' :: toFixed2 q) ['€'] []) [','] ['.'])
      (strLit "0")) = some ((roundQ (q * 100) : ℚ) / 100) := by
  have h1 : jsReplaceFirst ('€' :: toFixed2 q) ['€'] [] = toFixed2 q := by
    unfold jsReplaceFirst
    rw [show ('€' :: toFixed2 q) = ['€'] ++ toFixed2 q from rfl,
      splitFirst_self_append ['€'] (toFixed2 q) (by decide)]
    rfl
  have h2 : jsReplaceFirst (toFixed2 q) [','] ['.'] = toFixed2 q := by
    unfold jsReplaceFirst
    rw [splitFirst_eq_none _ _ (containsSub_single_false _ ','
      (fun a ha => (toFixed2_char_facts q a ha).2.1))]
  rw [h1, h2]
  unfold jsOr
  rw [toFixed2_isEmpty q]
  simp only [Bool.false_eq_true, if_false]
  exact parseFloatQ_toFixed2 q

lemma not_true_of_false {b : Bool} (h : b = false) : ¬ b = true := by simp [h]

lemma containsSub_single_mem (s : Str) (c : Char) (h : containsSub s [c] = false) :
    ∀ a ∈ s, (a == c) = false := by
  induction s with
  | nil => intro a ha; simp at ha
  | cons b rest ih =>
    simp only [containsSub, jsStartsWith, Bool.or_eq_false_iff, Bool.and_eq_false_iff] at h
    intro a ha
    rcases List.mem_cons.mp ha with rfl | h2
    · rcases h.1 with h1 | h1
      · exact h1
      · simp at h1
    · exact ih h.2 a h2

lemma cleanValue_spec (v label : Str) (h : cleanValue v label = true) :
    jsTrim v = v ∧ (∀ a ∈ v, (a == '\n') = false) ∧ containsSub v label = false := by
  unfold cleanValue at h
  simp only [Bool.and_eq_true, Bool.not_eq_true'] at h
  exact ⟨eq_of_beq h.1.1, containsSub_single_mem v '\n' h.1.2, h.2⟩

lemma line_no_newline (label v : Str) (hlab : ∀ a ∈ label, (a == '\n') = false)
    (hv : ∀ a ∈ v, (a == '\n') = false) :
    containsSub (label ++ ' ' :: v) ['\n'] = false := by
  apply containsSub_single_false
  intro a ha
  rcases List.mem_append.mp ha with h | h
  · exact hlab a h
  · rcases List.mem_cons.mp h with rfl | h2
    · decide
    · exact hv a h2

lemma payoutValue_no_newline (q : ℚ) : ∀ a ∈ '€' :: toFixed2 q, (a == '\n') = false := by
  intro a ha
  rcases List.mem_cons.mp ha with rfl | h2
  · decide
  · exact (toFixed2_char_facts q a h2).2.2.1

lemma renderLines_empty (d : DealPayload) (h : d.dealId.isEmpty = true) :
    renderDescriptionLines d
    = [labelProductName ++ ' ' :: d.productName,
       labelSKU ++ ' ' :: d.sku,
       labelSize ++ ' ' :: d.size,
       labelBrand ++ ' ' :: d.brand,
       labelPayout ++ ' ' :: '€' :: toFixed2 d.startPayout] := by
  simp [renderDescriptionLines, h]

lemma renderLines_some (d : DealPayload) (h : d.dealId.isEmpty = false) :
    renderDescriptionLines d
    = [labelProductName ++ ' ' :: d.productName,
       labelSKU ++ ' ' :: d.sku,
       labelSize ++ ' ' :: d.size,
       labelBrand ++ ' ' :: d.brand,
       labelPayout ++ ' ' :: '€' :: toFixed2 d.startPayout,
       labelOrderId ++ ' ' :: d.dealId] := by
  simp [renderDescriptionLines, h]

lemma renderLines_split (d : DealPayload)
    (hpn : cleanValue d.productName labelProductName = true)
    (hsku : cleanValue d.sku labelSKU = true)
    (hsize : cleanValue d.size labelSize = true)
    (hbrand : cleanValue d.brand labelBrand = true)
    (hord : d.dealId = [] ∨ cleanValue d.dealId labelOrderId = true) :
    jsSplit (renderDescription d) ['\n'] = renderDescriptionLines d := by
  unfold renderDescription
  by_cases hid : d.dealId.isEmpty
  · rw [renderLines_empty d hid]
    apply jsSplit_joinWith
    · intro l hl
      simp only [List.mem_cons, List.not_mem_nil, or_false] at hl
      rcases hl with rfl | rfl | rfl | rfl | rfl
      · exact line_no_newline _ _ (by decide) (cleanValue_spec _ _ hpn).2.1
      · exact line_no_newline _ _ (by decide) (cleanValue_spec _ _ hsku).2.1
      · exact line_no_newline _ _ (by decide) (cleanValue_spec _ _ hsize).2.1
      · exact line_no_newline _ _ (by decide) (cleanValue_spec _ _ hbrand).2.1
      · exact line_no_newline _ _ (by decide) (payoutValue_no_newline d.startPayout)
    · simp
  · have hid2 : d.dealId.isEmpty = false := by simpa using hid
    have hcl : cleanValue d.dealId labelOrderId = true := by
      rcases hord with h0 | h
      · rw [h0] at hid2; simp at hid2
      · exact h
    rw [renderLines_some d hid2]
    apply jsSplit_joinWith
    · intro l hl
      simp only [List.mem_cons, List.not_mem_nil, or_false] at hl
      rcases hl with rfl | rfl | rfl | rfl | rfl | rfl
      · exact line_no_newline _ _ (by decide) (cleanValue_spec _ _ hpn).2.1
      · exact line_no_newline _ _ (by decide) (cleanValue_spec _ _ hsku).2.1
      · exact line_no_newline _ _ (by decide) (cleanValue_spec _ _ hsize).2.1
      · exact line_no_newline _ _ (by decide) (cleanValue_spec _ _ hbrand).2.1
      · exact line_no_newline _ _ (by decide) (payoutValue_no_newline d.startPayout)
      · exact line_no_newline _ _ (by decide) (cleanValue_spec _ _ hcl).2.1
    · simp

lemma getValue_productName (d : DealPayload)
    (hpn : cleanValue d.productName labelProductName = true) :
    getValueFromLines (renderDescriptionLines d) labelProductName = d.productName := by
  obtain ⟨t1, _, t3⟩ := cleanValue_spec _ _ hpn
  have hf : List.find? (fun l => jsStartsWith l labelProductName) (renderDescriptionLines d)
      = some (labelProductName ++ ' ' :: d.productName) := rfl
  unfold getValueFromLines
  rw [hf]
  exact getValue_extract labelProductName d.productName (by decide)
    (containsSub_cons_false ' ' d.productName labelProductName (by rfl) t3) t1

lemma getValue_sku (d : DealPayload) (hsku : cleanValue d.sku labelSKU = true) :
    getValueFromLines (renderDescriptionLines d) labelSKU = d.sku := by
  obtain ⟨t1, _, t3⟩ := cleanValue_spec _ _ hsku
  have hf : List.find? (fun l => jsStartsWith l labelSKU) (renderDescriptionLines d)
      = some (labelSKU ++ ' ' :: d.sku) := rfl
  unfold getValueFromLines
  rw [hf]
  exact getValue_extract labelSKU d.sku (by decide)
    (containsSub_cons_false ' ' d.sku labelSKU (by rfl) t3) t1

lemma getValue_size (d : DealPayload) (hsize : cleanValue d.size labelSize = true) :
    getValueFromLines (renderDescriptionLines d) labelSize = d.size := by
  obtain ⟨t1, _, t3⟩ := cleanValue_spec _ _ hsize
  have hf : List.find? (fun l => jsStartsWith l labelSize) (renderDescriptionLines d)
      = some (labelSize ++ ' ' :: d.size) := rfl
  unfold getValueFromLines
  rw [hf]
  exact getValue_extract labelSize d.size (by decide)
    (containsSub_cons_false ' ' d.size labelSize (by rfl) t3) t1

lemma getValue_brand (d : DealPayload) (hbrand : cleanValue d.brand labelBrand = true) :
    getValueFromLines (renderDescriptionLines d) labelBrand = d.brand := by
  obtain ⟨t1, _, t3⟩ := cleanValue_spec _ _ hbrand
  have hf : List.find? (fun l => jsStartsWith l labelBrand) (renderDescriptionLines d)
      = some (labelBrand ++ ' ' :: d.brand) := rfl
  unfold getValueFromLines
  rw [hf]
  exact getValue_extract labelBrand d.brand (by decide)
    (containsSub_cons_false ' ' d.brand labelBrand (by rfl) t3) t1

lemma getValue_payout (d : DealPayload) :
    getValueFromLines (renderDescriptionLines d) labelPayout
      = '€' :: toFixed2 d.startPayout := by
  have hf : List.find? (fun l => jsStartsWith l labelPayout) (renderDescriptionLines d)
      = some (labelPayout ++ ' ' :: '€' :: toFixed2 d.startPayout) := rfl
  unfold getValueFromLines
  rw [hf]
  refine getValue_extract labelPayout _ (by decide) ?_ ?_
  · exact containsSub_cons_false ' ' _ _ (by rfl)
      (containsSub_cons_false '€' _ _ (by rfl)
        (containsSub_head_false _ '*' _
          (fun a ha => (toFixed2_char_facts d.startPayout a ha).2.2.2.1)))
  · refine jsTrim_eq_self_of_no_ws _ ?_
    intro a ha
    rcases List.mem_cons.mp ha with rfl | h2
    · decide
    · exact (toFixed2_char_facts d.startPayout a h2).1

lemma getValue_orderId (d : DealPayload)
    (hord : d.dealId = [] ∨ cleanValue d.dealId labelOrderId = true) :
    getValueFromLines (renderDescriptionLines d) labelOrderId = d.dealId := by
  by_cases hid : d.dealId.isEmpty
  · have hf : List.find? (fun l => jsStartsWith l labelOrderId) (renderDescriptionLines d)
        = none := by
      rw [renderLines_empty d hid]
      rfl
    unfold getValueFromLines
    rw [hf, List.isEmpty_iff.mp hid]
  · have hid2 : d.dealId.isEmpty = false := by simpa using hid
    have hcl : cleanValue d.dealId labelOrderId = true := by
      rcases hord with h0 | h
      · rw [h0] at hid2; simp at hid2
      · exact h
    obtain ⟨t1, _, t3⟩ := cleanValue_spec _ _ hcl
    have hf : List.find? (fun l => jsStartsWith l labelOrderId) (renderDescriptionLines d)
        = some (labelOrderId ++ ' ' :: d.dealId) := by
      rw [renderLines_some d hid2]
      rfl
    unfold getValueFromLines
    rw [hf]
    exact getValue_extract labelOrderId d.dealId (by decide)
      (containsSub_cons_false ' ' d.dealId labelOrderId (by rfl) t3) t1

/-- C3: the codec round-trip holds for every deal whose field values are
hygienic in the sense of `cleanValue` (trim-stable, no line break, label
not contained): parsing the rendered description recovers the four string
fields byte-for-byte, the payout up to cent rounding, and the order id
exactly, the empty string when that optional field is unpopulated.  The
image never travels through the text: it rides on the embed and the modal
parse does not recover it.  The hygiene hypotheses are necessary: see the
trailing-space counterexample. -/
theorem render_parse_roundtrip (d : DealPayload)
    (hpn : cleanValue d.productName labelProductName = true)
    (hsku : cleanValue d.sku labelSKU = true)
    (hsize : cleanValue d.size labelSize = true)
    (hbrand : cleanValue d.brand labelBrand = true)
    (hord : d.dealId = [] ∨ cleanValue d.dealId labelOrderId = true) :
    (parseDescription (renderDescription d)).productName = d.productName ∧
    (parseDescription (renderDescription d)).sku = d.sku ∧
    (parseDescription (renderDescription d)).size = d.size ∧
    (parseDescription (renderDescription d)).brand = d.brand ∧
    (parseDescription (renderDescription d)).startPayout
      = some ((roundQ (d.startPayout * 100) : ℚ) / 100) ∧
    (parseDescription (renderDescription d)).orderId = d.dealId := by
  have hl : jsSplit (renderDescription d) ['\n'] = renderDescriptionLines d :=
    renderLines_split d hpn hsku hsize hbrand hord
  simp only [parseDescription]
  rw [hl]
  refine ⟨getValue_productName d hpn, getValue_sku d hsku, getValue_size d hsize,
    getValue_brand d hbrand, ?_, getValue_orderId d hord⟩
  rw [getValue_payout d]
  exact payout_parse d.startPayout

/-- C3 witness: the round-trip theorem applied to a concrete clean deal
with both optional fields populated. -/
theorem render_parse_roundtrip_check :
    (parseDescription (renderDescription dealClean)).productName = dealClean.productName ∧
    (parseDescription (renderDescription dealClean)).sku = dealClean.sku ∧
    (parseDescription (renderDescription dealClean)).size = dealClean.size ∧
    (parseDescription (renderDescription dealClean)).brand = dealClean.brand ∧
    (parseDescription (renderDescription dealClean)).startPayout
      = some ((roundQ (dealClean.startPayout * 100) : ℚ) / 100) ∧
    (parseDescription (renderDescription dealClean)).orderId = dealClean.dealId :=
  render_parse_roundtrip dealClean (by decide) (by decide) (by decide) (by decide)
    (Or.inr (by decide))

/-- C3 counterexample: a product name with a trailing space does not come
back byte-for-byte, because `getValueFromLines` trims the extracted value;
the unconditional byte-for-byte round-trip of the claim fails. -/
theorem roundtrip_not_byte_exact :
    dealSpace.productName = strLit "Shoe A " ∧
    (parseDescription (renderDescription dealSpace)).productName = strLit "Shoe A" ∧
    (parseDescription (renderDescription dealSpace)).productName ≠ dealSpace.productName := by
  refine ⟨rfl, ?_, ?_⟩ <;> with_unfolding_all decide


/-! ### C7: idempotence of the disable fan-out -/

lemma setMsgDisabled_id (mid : Str) (m : DiscordMsg) : (setMsgDisabled mid m).id = m.id := by
  unfold setMsgDisabled
  by_cases h : m.id == mid <;> simp [h]

lemma setDisabledIf_nil (m : DiscordMsg) : setDisabledIf [] m = m := by
  unfold setDisabledIf
  simp

lemma setDisabledIf_id (ids : List Str) (m : DiscordMsg) : (setDisabledIf ids m).id = m.id := by
  unfold setDisabledIf
  by_cases h : m.id ∈ ids <;> simp [h]

lemma setDisabledIf_step (mid : Str) (rest : List Str) (m : DiscordMsg) :
    setDisabledIf rest (setMsgDisabled mid m) = setDisabledIf (mid :: rest) m := by
  unfold setDisabledIf setMsgDisabled
  by_cases h : m.id = mid
  · by_cases h2 : m.id ∈ rest <;> simp [h, h2, List.contains_cons]
  · by_cases h2 : m.id ∈ rest <;> simp [h, h2, List.contains_cons]

lemma setDisabledIf_idem (ids : List Str) (m : DiscordMsg) :
    setDisabledIf ids (setDisabledIf ids m) = setDisabledIf ids m := by
  unfold setDisabledIf
  by_cases h : m.id ∈ ids <;> simp [h]

lemma applyDisable_id (ids : List Str) (ch : DiscordChannel) :
    (applyDisable ids ch).id = ch.id := rfl

lemma applyDisable_nil (ch : DiscordChannel) : applyDisable [] ch = ch := by
  unfold applyDisable
  rw [List.map_congr_left (fun m _ => setDisabledIf_nil m), List.map_id']

lemma applyDisable_msgIds (ids : List Str) (ch : DiscordChannel) :
    (applyDisable ids ch).messages.map (fun m => m.id) = ch.messages.map (fun m => m.id) := by
  simp only [applyDisable, List.map_map]
  exact List.map_congr_left (fun m _ => setDisabledIf_id ids m)

lemma applyDisable_idem (ids : List Str) (ch : DiscordChannel) :
    applyDisable ids (applyDisable ids ch) = applyDisable ids ch := by
  simp only [applyDisable, List.map_map]
  exact congrArg _ (List.map_congr_left (fun m _ => setDisabledIf_idem ids m))

lemma disableMsgs_char (env : Env) (hfail : env.discordEditFails = false) :
    ∀ (mids : List Str) (ch : DiscordChannel),
    disableMsgsInChannel env ch mids
      = (applyDisable mids ch,
         msgEffects ch.id (ch.messages.map (fun m => m.id)) mids, false) := by
  intro mids
  induction mids with
  | nil =>
    intro ch
    rw [show disableMsgsInChannel env ch [] = (ch, [], false) from rfl, applyDisable_nil]
    rfl
  | cons mid rest ih =>
    intro ch
    cases hfind : ch.messages.find? (fun m => m.id == mid) with
    | none =>
      have hall : ∀ m ∈ ch.messages, (m.id == mid) = false := by
        intro m hm
        simpa using List.find?_eq_none.mp hfind m hm
      have hnm : mid ∉ ch.messages.map (fun m => m.id) := by
        intro hmem
        rcases List.mem_map.mp hmem with ⟨m, hm, hid⟩
        have := hall m hm
        rw [hid] at this
        simp at this
      simp only [disableMsgsInChannel, hfind]
      rw [ih ch]
      simp only [Prod.mk.injEq]
      refine ⟨?_, ?_, trivial⟩
      · simp only [applyDisable, DiscordChannel.mk.injEq, true_and]
        apply List.map_congr_left
        intro m hm
        have hne2 : ¬ m.id = mid := by simpa using hall m hm
        simp [setDisabledIf, List.contains_cons, hne2]
      · simp [msgEffects, hnm]
    | some m0 =>
      have hp := List.find?_some hfind
      have hm0id : m0.id = mid := by simpa using hp
      have hm0mem : m0 ∈ ch.messages := List.mem_of_find?_eq_some hfind
      have hmemid : mid ∈ ch.messages.map (fun m => m.id) :=
        List.mem_map.mpr ⟨m0, hm0mem, hm0id⟩
      simp only [disableMsgsInChannel, hfind, hfail, Bool.false_eq_true, if_false]
      rw [ih (editMsgInChannel ch mid)]
      simp only [Prod.mk.injEq]
      refine ⟨?_, ?_, trivial⟩
      · simp only [applyDisable, editMsgInChannel, List.map_map, DiscordChannel.mk.injEq,
          true_and]
        exact List.map_congr_left (fun m _ => setDisabledIf_step mid rest m)
      · have hids : (editMsgInChannel ch mid).messages.map (fun m => m.id)
            = ch.messages.map (fun m => m.id) := by
          simp only [editMsgInChannel, List.map_map]
          exact List.map_congr_left (fun m _ => setMsgDisabled_id mid m)
        rw [hids]
        simp [msgEffects, hmemid, editMsgInChannel]

lemma fanEffects_map (ds : DiscordState) (mids : List Str) (F : DiscordChannel → DiscordChannel)
    (hid : ∀ c, (F c).id = c.id)
    (hmsg : ∀ c, (F c).messages.map (fun m => m.id) = c.messages.map (fun m => m.id)) :
    ∀ cids, fanEffects { channels := ds.channels.map F } mids cids
      = fanEffects ds mids cids := by
  intro cids
  induction cids with
  | nil => rfl
  | cons cid rest ih =>
    simp only [fanEffects]
    rw [List.find?_map]
    have hp : ((fun c : DiscordChannel => c.id == cid) ∘ F)
        = (fun c : DiscordChannel => c.id == cid) := by
      funext c
      simp [Function.comp, hid c]
    rw [hp]
    cases hf : ds.channels.find? (fun c => c.id == cid) with
    | none => simpa using ih
    | some ch =>
      simp only [show Option.map F (some ch) = some (F ch) from rfl]
      rw [hmsg ch, ih]

lemma applyDisableAll_nil (ids : List Str) (ds : DiscordState) :
    applyDisableAll [] ids ds = ds := by
  simp only [applyDisableAll]
  have h : ∀ c ∈ ds.channels,
      (if ([] : List Str).contains c.id then applyDisable ids c else c) = c := by
    intro c _
    simp
  rw [List.map_congr_left h, List.map_id']

lemma applyDisableAll_ids (cids ids : List Str) (ds : DiscordState) :
    (applyDisableAll cids ids ds).channels.map (fun c => c.id)
      = ds.channels.map (fun c => c.id) := by
  simp only [applyDisableAll, List.map_map]
  apply List.map_congr_left
  intro c _
  by_cases h : c.id ∈ cids <;> simp [h, applyDisable_id]

lemma applyDisableAll_idem (cids ids : List Str) (ds : DiscordState) :
    applyDisableAll cids ids (applyDisableAll cids ids ds) = applyDisableAll cids ids ds := by
  simp only [applyDisableAll, List.map_map, DiscordState.mk.injEq]
  apply List.map_congr_left
  intro c _
  by_cases h : c.id ∈ cids
  · simp [h, applyDisable_id, applyDisable_idem]
  · simp [h]

lemma disableFanout_char (env : Env) (hfail : env.discordEditFails = false) :
    ∀ (cids : List Str) (ds : DiscordState) (mids : List Str),
    (ds.channels.map (fun c => c.id)).Nodup →
    disableFanout env mids ds cids
      = (applyDisableAll cids mids ds, fanEffects ds mids cids, false) := by
  intro cids
  induction cids with
  | nil =>
    intro ds mids _
    rw [show disableFanout env mids ds [] = (ds, [], false) from rfl, applyDisableAll_nil]
    rfl
  | cons cid rest ih =>
    intro ds mids hnd
    cases hfind : ds.channels.find? (fun c => c.id == cid) with
    | none =>
      have hall : ∀ c ∈ ds.channels, (c.id == cid) = false := by
        intro c hc
        simpa using List.find?_eq_none.mp hfind c hc
      simp only [disableFanout, hfind]
      rw [ih ds mids hnd]
      simp only [Prod.mk.injEq]
      refine ⟨?_, ?_, trivial⟩
      · simp only [applyDisableAll, DiscordState.mk.injEq]
        apply List.map_congr_left
        intro c hc
        have hne2 : ¬ c.id = cid := by simpa using hall c hc
        simp [List.contains_cons, hne2]
      · simp [fanEffects, hfind]
    | some ch =>
      have hchid : ch.id = cid := by simpa using List.find?_some hfind
      have hchmem : ch ∈ ds.channels := List.mem_of_find?_eq_some hfind
      simp only [disableFanout, hfind]
      rw [disableMsgs_char env hfail mids ch]
      dsimp only
      rw [if_neg Bool.false_ne_true]
      have hds1 : replaceChannel ds (applyDisable mids ch) cid
          = DiscordState.mk (ds.channels.map
              (fun c => if c.id == cid then applyDisable mids c else c)) := by
        unfold replaceChannel
        congr 1
        apply List.map_congr_left
        intro c hc
        by_cases h : c.id == cid
        · have hc2 : c = ch := by
            apply List.inj_on_of_nodup_map hnd hc hchmem
            rw [eq_of_beq h, hchid]
          rw [hc2]
        · simp [h]
      rw [hds1]
      have hnd1 : ((DiscordState.mk (ds.channels.map
          (fun c => if c.id == cid then applyDisable mids c else c))).channels.map
            (fun c => c.id)).Nodup := by
        have hsame : (ds.channels.map
            (fun c => if c.id == cid then applyDisable mids c else c)).map (fun c => c.id)
            = ds.channels.map (fun c => c.id) := by
          rw [List.map_map]
          apply List.map_congr_left
          intro c _
          by_cases h : c.id = cid <;> simp [h, applyDisable_id]
        dsimp only
        rw [hsame]
        exact hnd
      rw [ih _ mids hnd1]
      simp only [Prod.mk.injEq]
      refine ⟨?_, ?_, trivial⟩
      · simp only [applyDisableAll, List.map_map, DiscordState.mk.injEq]
        apply List.map_congr_left
        intro c _
        by_cases h : c.id = cid
        · by_cases h2 : c.id ∈ rest <;>
            simp [Function.comp, h, h2, List.contains_cons, applyDisable_id, applyDisable_idem]
        · by_cases h2 : c.id ∈ rest <;>
            simp [Function.comp, h, h2, List.contains_cons]
      · rw [fanEffects_map ds mids (fun c => if c.id == cid then applyDisable mids c else c)
            (fun c => by by_cases h : c.id = cid <;> simp [h, applyDisable_id])
            (fun c => by by_cases h : c.id = cid <;> simp [h, applyDisable_msgIds]) rest]
        simp [fanEffects, hfind, hchid]

lemma fanEffects_applyDisableAll (ds : DiscordState) (cids0 ids0 mids cids : List Str) :
    fanEffects (applyDisableAll cids0 ids0 ds) mids cids = fanEffects ds mids cids := by
  have h := fanEffects_map ds mids
      (fun c => if cids0.contains c.id then applyDisable ids0 c else c)
      (fun c => by by_cases h : c.id ∈ cids0 <;> simp [h, applyDisable_id])
      (fun c => by by_cases h : c.id ∈ cids0 <;> simp [h, applyDisable_msgIds]) cids
  exact h

lemma find?_updateOrderFlag (st : Store) (rid : Str) (order : OrderRec)
    (h : st.orders.find? (fun o => o.id == rid) = some order) :
    (updateOrderFlag st rid true).orders.find? (fun o => o.id == rid)
      = some { order with buttonsDisabled := true } := by
  have hp : ((fun o : OrderRec => o.id == rid)
      ∘ (fun o : OrderRec => if o.id == rid then { o with buttonsDisabled := true } else o))
      = (fun o : OrderRec => o.id == rid) := by
    funext o
    by_cases hb : o.id = rid <;> simp [Function.comp, hb]
  simp only [updateOrderFlag]
  rw [List.find?_map, hp, h]
  have hb2 : order.id = rid := by simpa using List.find?_some h
  simp [hb2]

lemma updateOrderFlag_idem2 (st : Store) (rid : Str) :
    updateOrderFlag (updateOrderFlag st rid true) rid true = updateOrderFlag st rid true := by
  simp only [updateOrderFlag, List.map_map]
  congr 1
  apply List.map_congr_left
  intro o _
  by_cases ho : o.id = rid <;> simp [ho]

lemma disableDeal_char (env : Env) (st : Store) (ds : DiscordState) (rid : Str)
    (order : OrderRec)
    (horder : st.orders.find? (fun o => o.id == rid) = some order)
    (hmid : order.partnerDealMessageId.isEmpty = false)
    (hms : (splitMessageIds order.partnerDealMessageId).isEmpty = false)
    (hedit : env.discordEditFails = false)
    (hnd : (ds.channels.map (fun c => c.id)).Nodup) :
    disableDealMessagesForRecord env st ds rid
      = (applyDisableAll env.dealsChannelIds (splitMessageIds order.partnerDealMessageId) ds,
         Effect.airOrdersFind rid
           :: fanEffects ds (splitMessageIds order.partnerDealMessageId) env.dealsChannelIds,
         false) := by
  unfold disableDealMessagesForRecord
  rw [horder]
  simp only [hmid, hms, Bool.false_eq_true, if_false]
  rw [disableFanout_char env hedit env.dealsChannelIds ds
    (splitMessageIds order.partnerDealMessageId) hnd]

lemma postDisable_char (env : Env) (st : Store) (ds : DiscordState) (rid : Str)
    (order : OrderRec)
    (hne : rid.isEmpty = false)
    (horder : st.orders.find? (fun o => o.id == rid) = some order)
    (hmid : order.partnerDealMessageId.isEmpty = false)
    (hms : (splitMessageIds order.partnerDealMessageId).isEmpty = false)
    (hedit : env.discordEditFails = false)
    (hupd : env.ordersUpdateFails = false)
    (hnd : (ds.channels.map (fun c => c.id)).Nodup) :
    postPartnerDealDisable env st ds (some rid)
      = (updateOrderFlag st rid true,
         applyDisableAll env.dealsChannelIds (splitMessageIds order.partnerDealMessageId) ds,
         Effect.airOrdersFind rid
           :: (fanEffects ds (splitMessageIds order.partnerDealMessageId) env.dealsChannelIds
             ++ [Effect.airOrdersUpdate rid true]),
         DisableResp.ok) := by
  unfold postPartnerDealDisable
  simp only [hne, Bool.false_eq_true, if_false]
  rw [disableDeal_char env st ds rid order horder hmid hms hedit hnd]
  dsimp only
  rw [if_neg Bool.false_ne_true]
  simp [hupd, List.cons_append]

/-- C7: the disable operation never consults the buttons-disabled flag.  A
first call on a resolvable order with listed message ids disables every
listed copy in the configured deal channels and sets the flag; a second
call on the resulting state answers 200 again, leaves the state fixed, and
performs the identical external fan-out once more — the listed copies are
re-fetched and re-edited, so the no-redundant-fan-out clause of the claim
fails. -/
theorem disable_twice_repeats_fanout (env : Env) (st : Store) (ds : DiscordState)
    (rid : Str) (order : OrderRec)
    (hne : rid.isEmpty = false)
    (horder : st.orders.find? (fun o => o.id == rid) = some order)
    (hmid : order.partnerDealMessageId.isEmpty = false)
    (hms : (splitMessageIds order.partnerDealMessageId).isEmpty = false)
    (hedit : env.discordEditFails = false)
    (hupd : env.ordersUpdateFails = false)
    (hnd : (ds.channels.map (fun c => c.id)).Nodup) :
    postPartnerDealDisable env st ds (some rid)
      = (updateOrderFlag st rid true,
         applyDisableAll env.dealsChannelIds (splitMessageIds order.partnerDealMessageId) ds,
         Effect.airOrdersFind rid
           :: (fanEffects ds (splitMessageIds order.partnerDealMessageId) env.dealsChannelIds
             ++ [Effect.airOrdersUpdate rid true]),
         DisableResp.ok)
    ∧ postPartnerDealDisable env (updateOrderFlag st rid true)
        (applyDisableAll env.dealsChannelIds (splitMessageIds order.partnerDealMessageId) ds)
        (some rid)
      = (updateOrderFlag st rid true,
         applyDisableAll env.dealsChannelIds (splitMessageIds order.partnerDealMessageId) ds,
         Effect.airOrdersFind rid
           :: (fanEffects ds (splitMessageIds order.partnerDealMessageId) env.dealsChannelIds
             ++ [Effect.airOrdersUpdate rid true]),
         DisableResp.ok) := by
  constructor
  · exact postDisable_char env st ds rid order hne horder hmid hms hedit hupd hnd
  · have horder2 := find?_updateOrderFlag st rid order horder
    have hnd2 : (((applyDisableAll env.dealsChannelIds
        (splitMessageIds order.partnerDealMessageId) ds)).channels.map
          (fun c => c.id)).Nodup := by
      rw [applyDisableAll_ids]
      exact hnd
    have h2 := postDisable_char env (updateOrderFlag st rid true)
      (applyDisableAll env.dealsChannelIds (splitMessageIds order.partnerDealMessageId) ds)
      rid { order with buttonsDisabled := true } hne horder2 hmid hms hedit hupd hnd2
    rw [h2]
    dsimp only
    rw [updateOrderFlag_idem2, applyDisableAll_idem, fanEffects_applyDisableAll]

/-- C7 witness: both calls on the fixture order, concretely. -/
theorem disable_twice_repeats_fanout_check :
    postPartnerDealDisable env0 st0 dsD (some (strLit "rec1"))
      = (updateOrderFlag st0 (strLit "rec1") true,
         applyDisableAll env0.dealsChannelIds
           (splitMessageIds order0.partnerDealMessageId) dsD,
         Effect.airOrdersFind (strLit "rec1")
           :: (fanEffects dsD (splitMessageIds order0.partnerDealMessageId) env0.dealsChannelIds
             ++ [Effect.airOrdersUpdate (strLit "rec1") true]),
         DisableResp.ok)
    ∧ postPartnerDealDisable env0 (updateOrderFlag st0 (strLit "rec1") true)
        (applyDisableAll env0.dealsChannelIds
          (splitMessageIds order0.partnerDealMessageId) dsD)
        (some (strLit "rec1"))
      = (updateOrderFlag st0 (strLit "rec1") true,
         applyDisableAll env0.dealsChannelIds
           (splitMessageIds order0.partnerDealMessageId) dsD,
         Effect.airOrdersFind (strLit "rec1")
           :: (fanEffects dsD (splitMessageIds order0.partnerDealMessageId) env0.dealsChannelIds
             ++ [Effect.airOrdersUpdate (strLit "rec1") true]),
         DisableResp.ok) :=
  disable_twice_repeats_fanout env0 st0 dsD (strLit "rec1") order0
    (by decide) (by with_unfolding_all decide) (by decide) (by decide)
    (by decide) (by decide) (by decide)

/-- C7 counterexample: concretely, after the first disable call has set the
flag and disabled the single copy, the second call re-fetches and re-edits
that copy — its trace repeats the fan-out of the first call instead of
skipping it. -/
theorem second_disable_repeats_fanout :
    dRun1.2.2.2 = DisableResp.ok
    ∧ dRun1.1.orders.map (fun o => o.buttonsDisabled) = [true]
    ∧ Effect.discordEditMsg (strLit "ch1") (strLit "m1") ∈ dRun2.2.2.1
    ∧ dRun2.2.2.1 = dRun1.2.2.1 := by
  refine ⟨?_, ?_, ?_, ?_⟩ <;> with_unfolding_all decide

end PartnerDealBot
